import Mathlib

/-
Shallow embedding of the analytics and flag-detection engine of the
filingwatcher repository (src/ingestion/analytics.py, src/ingestion/flags.py,
src/ingestion/prices.py, schema in src/db/models.py).

Conventions of the embedding:
* calendar dates are day numbers in ℤ; a Python `timedelta(days=n)` is `+ n`;
* SQL Float columns and Python floats are modelled by ℚ, nullable columns by
  `Option _`;
* Python truthiness of a nullable float (`if not x:`) is `pyTruthy`;
* the free-text `description` column of a flag is presentation text that no
  claim refers to, so it is not carried in the `Flag` record;
* `insider_name` is modelled as `String`: rows whose insider identity is
  missing are dropped by the analytics orchestrator and no claim concerns
  them;
* SQL result ordering (`order_by`) is modelled by a deterministic stable
  insertion sort, matching Python's stable `sort` / pandas `sort_values`
  with missing keys placed last.
-/

namespace FilingWatcher

deriving instance DecidableEq for Except

/-- Python truthiness of a nullable float: `None` and `0.0` are falsy. -/
def pyTruthy (x : Option ℚ) : Bool :=
  match x with
  | none => false
  | some v => v != 0

/-- Stable insertion: `x` is placed before the first element `y` with
`lt y x = false`, so equal keys keep their original relative order. -/
def insertBy (lt : α → α → Bool) (x : α) : List α → List α
  | [] => [x]
  | y :: ys => if lt y x then y :: insertBy lt x ys else x :: y :: ys

/-- Stable sort by a strict comparison, models Python's stable `sort`. -/
def sortBy (lt : α → α → Bool) : List α → List α
  | [] => []
  | x :: xs => insertBy lt x (sortBy lt xs)

/-- Helper of `firstOccurrences`: drop the keys already seen. -/
def firstOccurrencesAux (seen : List String) : List String → List String
  | [] => []
  | t :: ts =>
    if seen.contains t then firstOccurrencesAux seen ts
    else t :: firstOccurrencesAux (t :: seen) ts

/-- Keys of a list in order of first occurrence, models defaultdict /
pandas groupby key order. -/
def firstOccurrences (l : List String) : List String := firstOccurrencesAux [] l

/-- Group a list by a string key, keys in first-occurrence order and each
group keeping the original row order (defaultdict append / groupby). -/
def groupBy (key : α → String) (l : List α) : List (String × List α) :=
  (firstOccurrences (l.map key)).map (fun k => (k, l.filter (fun x => key x == k)))

/-- Lexicographic strict order on char lists (Python string comparison). -/
def charsLt : List Char → List Char → Bool
  | [], [] => false
  | [], _ :: _ => true
  | _ :: _, [] => false
  | x :: xs, y :: ys => if x = y then charsLt xs ys else decide (x < y)

/-- Python `a < b` on strings. -/
def strLt (a b : String) : Bool := charsLt a.data b.data

/-- ASCII lower-casing of one character (`str.lower` restricted to the ASCII
range, which covers every keyword the detectors compare against). -/
def lowerChar (c : Char) : Char :=
  if 65 ≤ c.toNat ∧ c.toNat ≤ 90 then Char.ofNat (c.toNat + 32) else c

/-- ASCII lower-casing of a string. -/
def lowerStr (s : String) : String := ⟨s.data.map lowerChar⟩

/-- Does the pattern occur at the head of the list. -/
def charsStartWith : List Char → List Char → Bool
  | [], _ => true
  | _ :: _, [] => false
  | p :: ps, c :: cs => p == c && charsStartWith ps cs

/-- Substring occurrence on char lists (Python `pat in s`). -/
def charsContain : List Char → List Char → Bool
  | [], pat => charsStartWith pat []
  | c :: cs, pat => charsStartWith pat (c :: cs) || charsContain cs pat

/-- Python `pat in s` on strings. -/
def strContains (s pat : String) : Bool := charsContain s.data pat.data

/-- Python `sep.join l`. -/
def joinWith (sep : String) : List String → String
  | [] => ""
  | [x] => x
  | x :: y :: ys => x ++ sep ++ joinWith sep (y :: ys)

/-- Minimum of a list of integers, `none` on the empty list (pandas
`Series.min` over the present values). -/
def minDate (l : List ℤ) : Option ℤ :=
  match l with
  | [] => none
  | x :: xs => some (xs.foldl min x)

/-- Maximum of a list of integers, `none` on the empty list (pandas
`Series.max` over the present values). -/
def maxDate (l : List ℤ) : Option ℤ :=
  match l with
  | [] => none
  | x :: xs => some (xs.foldl max x)

/-- One row of the `section16_filings` table (db/models.py), restricted to
the columns read by ingestion/flags.py and ingestion/analytics.py. -/
structure Section16Filing where
  accession_no     : String
  ticker           : String
  insider_name     : String
  insider_cik      : Option String
  company_name     : Option String
  officer_title    : Option String
  is_director      : Option Bool
  is_officer       : Option Bool
  is_ten_pct_owner : Option Bool
  filing_date      : Option ℤ
  transaction_date : Option ℤ
  transaction_code : Option String
  shares           : Option ℚ
  price            : Option ℚ
  value            : Option ℚ
  shares_remaining : Option ℚ
  is_derivative    : Bool
  is_10b5_1_plan   : Option Bool
deriving DecidableEq

/-- One row of the `price_history` table. -/
structure PricePoint where
  ticker : String
  date   : ℤ
  close  : ℚ
deriving DecidableEq

/-- One row of the `flags` table, without the free-text description. -/
structure Flag where
  ticker       : String
  insider_name : String
  accession_no : String
  flag_type    : String
  severity     : String
deriving DecidableEq

/-- One row of the `insider_analytics` table. -/
structure InsiderAnalytics where
  ticker                  : String
  insider_name            : String
  insider_cik             : Option String
  company_name            : Option String
  officer_title           : Option String
  is_director             : Bool
  is_officer              : Bool
  is_ten_pct_owner        : Bool
  first_txn_date          : Option ℤ
  last_filing_date        : Option ℤ
  entry_price             : Option ℚ
  current_price           : Option ℚ
  stock_pct_since_entry   : Option ℚ
  pct_2w                  : Option ℚ
  pct_1m                  : Option ℚ
  pct_3m                  : Option ℚ
  pct_6m                  : Option ℚ
  pct_1y                  : Option ℚ
  pct_2y                  : Option ℚ
  pct_3y                  : Option ℚ
  last_reported_shares    : Option ℚ
  current_position_value  : Option ℚ
  n_open_mkt_buys         : Nat
  open_mkt_shares_bought  : Option ℚ
  open_mkt_total_cost     : Option ℚ
  open_mkt_wacb           : Option ℚ
  open_mkt_unrealized_pct : Option ℚ
  open_mkt_unrealized_usd : Option ℚ
  n_open_mkt_sells        : Nat
  open_mkt_shares_sold    : Option ℚ
  open_mkt_total_proceeds : Option ℚ
  open_mkt_avg_sell_price : Option ℚ
  realized_pct            : Option ℚ
  shares_awarded          : Option ℚ
  award_current_value     : Option ℚ
  net_open_mkt_shares     : ℚ
  pct_trades_on_10b5_plan : ℚ
deriving DecidableEq

/-- The persistent store: the four tables the engine reads and writes. -/
structure DB where
  filings   : List Section16Filing
  prices    : List PricePoint
  flags     : List Flag
  analytics : List InsiderAnalytics
deriving DecidableEq

/-- ingestion/analytics.py `_safe_sum`: sum of the present values, `none`
when every value is missing. -/
def _safe_sum (values : List (Option ℚ)) : Option ℚ :=
  let s := values.filterMap id
  if s.isEmpty then none else some s.sum

/-- ingestion/analytics.py `_wacb`: weighted average over the positions
where shares and price are both present; `none` when that set is empty or
the share sum is zero. -/
def _wacb (shares prices : List (Option ℚ)) : Option ℚ :=
  let pairs := (shares.zip prices).filterMap (fun sp =>
    match sp.1, sp.2 with
    | some s, some p => some (s, p)
    | _, _ => none)
  let ssum := (pairs.map Prod.fst).sum
  if pairs.isEmpty ∨ ssum = 0 then none
  else some ((pairs.map (fun sp => sp.1 * sp.2)).sum / ssum)

/-- ingestion/analytics.py `_price_pct`. The Python guard is
`if price_a and price_b and price_a > 0`, so by float truthiness a price
equal to 0 on either side falls through to `None`; `a ≠ 0` is subsumed by
`0 < a` but kept to mirror the truthiness test on `price_a`. -/
def _price_pct : Option ℚ → Option ℚ → Option ℚ
  | some a, some b => if a ≠ 0 ∧ b ≠ 0 ∧ 0 < a then some ((b - a) / a * 100) else none
  | _, _ => none

/-- Strict comparison on price rows by date ascending. -/
def ppDateLt (p q : PricePoint) : Bool := p.date < q.date

/-- Strict comparison on price rows by date descending. -/
def ppDateGt (p q : PricePoint) : Bool := q.date < p.date

/-- ingestion/prices.py `get_price_on_or_after`: first close at a date on or
after the target for the ticker. -/
def get_price_on_or_after (prices : List PricePoint) (ticker : String) (target : ℤ) :
    Option ℚ :=
  ((sortBy ppDateLt (prices.filter (fun p => p.ticker == ticker && target ≤ p.date))).head?).map
    (fun p => p.close)

/-- ingestion/prices.py `get_latest_price`: close at the greatest recorded
date for the ticker. -/
def get_latest_price (prices : List PricePoint) (ticker : String) : Option ℚ :=
  ((sortBy ppDateGt (prices.filter (fun p => p.ticker == ticker))).head?).map
    (fun p => p.close)

/-- ingestion/analytics.py `_window_price`: close about `days` days after
`base_date` (next available close). -/
def _window_price (prices : List PricePoint) (ticker : String) (base_date days : ℤ) :
    Option ℚ :=
  get_price_on_or_after prices ticker (base_date + days)

/-- Transaction-date key for sorting rows, missing dates last (pandas
`sort_values` default `na_position`). -/
def txnDateLt (a b : Section16Filing) : Bool :=
  match a.transaction_date, b.transaction_date with
  | some x, some y => x < y
  | some _, none => true
  | none, _ => false

/-- Filing-date key for sorting rows, missing dates last. -/
def filingDateLt (a b : Section16Filing) : Bool :=
  match a.filing_date, b.filing_date with
  | some x, some y => x < y
  | some _, none => true
  | none, _ => false

/-- ingestion/analytics.py `_compute_for_insider`: the analytics record for
one (ticker, insider) group of rows. The caller only passes non-empty
groups; on an empty group the identity snapshot falls back to
missing/false values. The seven return windows are the `RETURN_WINDOWS`
of config.py (14/30/90/180/365/730/1095 days). -/
def _compute_for_insider (prices : List PricePoint) (ticker insider_name : String)
    (rows : List Section16Filing) : InsiderAnalytics :=
  let nd := sortBy txnDateLt (rows.filter (fun r => r.is_derivative == false))
  let latest_row := (sortBy filingDateLt rows).getLast?
  let officer_title := latest_row.bind (fun r => r.officer_title)
  let is_director := ((latest_row.bind (fun r => r.is_director)).getD false)
  let is_officer := ((latest_row.bind (fun r => r.is_officer)).getD false)
  let is_ten_pct := ((latest_row.bind (fun r => r.is_ten_pct_owner)).getD false)
  let company_name := latest_row.bind (fun r => r.company_name)
  let dated := nd.filter (fun r => r.transaction_date.isSome)
  let first_txn_dt := minDate (dated.filterMap (fun r => r.transaction_date))
  let last_filing := maxDate (rows.filterMap (fun r => r.filing_date))
  let cur_price := get_latest_price prices ticker
  let entry_price :=
    match first_txn_dt with
    | some d => get_price_on_or_after prices ticker d
    | none => none
  let stock_pct := _price_pct entry_price cur_price
  let wpct := fun (days : ℤ) =>
    match first_txn_dt with
    | some d => _price_pct entry_price (_window_price prices ticker d days)
    | none => none
  let pos_rows := sortBy txnDateLt (nd.filter (fun r => r.shares_remaining.isSome))
  let last_shares := (pos_rows.getLast?).bind (fun r => r.shares_remaining)
  let pos_value :=
    if pyTruthy last_shares && pyTruthy cur_price then
      some (last_shares.getD 0 * cur_price.getD 0)
    else none
  let buys := nd.filter (fun r => r.transaction_code == some "P")
  let n_buys := buys.length
  let buy_shares := _safe_sum (buys.map (fun r => r.shares))
  let buy_cost := _safe_sum (buys.map (fun r => r.value))
  let buy_wacb := _wacb (buys.map (fun r => r.shares)) (buys.map (fun r => r.price))
  let buy_unrlzd_pct :=
    if pyTruthy buy_wacb && pyTruthy cur_price && pyTruthy buy_shares then
      _price_pct buy_wacb cur_price
    else none
  let buy_unrlzd_usd :=
    if pyTruthy buy_wacb && pyTruthy cur_price && pyTruthy buy_shares then
      some ((cur_price.getD 0 - buy_wacb.getD 0) * buy_shares.getD 0)
    else none
  let sells := nd.filter (fun r => r.transaction_code == some "S")
  let n_sells := sells.length
  let sell_shares := _safe_sum (sells.map (fun r => r.shares))
  let sell_procs := _safe_sum (sells.map (fun r => r.value))
  let sell_wacb := _wacb (sells.map (fun r => r.shares)) (sells.map (fun r => r.price))
  let realized_pct :=
    if pyTruthy buy_wacb && pyTruthy sell_wacb then _price_pct buy_wacb sell_wacb
    else none
  let awards := nd.filter (fun r => r.transaction_code == some "A")
  let award_shares := _safe_sum (awards.map (fun r => r.shares))
  let award_cur_val :=
    if pyTruthy award_shares && pyTruthy cur_price then
      some (award_shares.getD 0 * cur_price.getD 0)
    else none
  let net_open_mkt := buy_shares.getD 0 - sell_shares.getD 0
  let plan_trades := nd.filter (fun r => r.is_10b5_1_plan == some true)
  let pct_plan :=
    if nd.length ≠ 0 then (plan_trades.length : ℚ) / (nd.length : ℚ) * 100 else 0
  { ticker := ticker
    insider_name := insider_name
    insider_cik := latest_row.bind (fun r => r.insider_cik)
    company_name := company_name
    officer_title := officer_title
    is_director := is_director
    is_officer := is_officer
    is_ten_pct_owner := is_ten_pct
    first_txn_date := first_txn_dt
    last_filing_date := last_filing
    entry_price := entry_price
    current_price := cur_price
    stock_pct_since_entry := stock_pct
    pct_2w := wpct 14
    pct_1m := wpct 30
    pct_3m := wpct 90
    pct_6m := wpct 180
    pct_1y := wpct 365
    pct_2y := wpct 730
    pct_3y := wpct 1095
    last_reported_shares := last_shares
    current_position_value := pos_value
    n_open_mkt_buys := n_buys
    open_mkt_shares_bought := buy_shares
    open_mkt_total_cost := buy_cost
    open_mkt_wacb := buy_wacb
    open_mkt_unrealized_pct := buy_unrlzd_pct
    open_mkt_unrealized_usd := buy_unrlzd_usd
    n_open_mkt_sells := n_sells
    open_mkt_shares_sold := sell_shares
    open_mkt_total_proceeds := sell_procs
    open_mkt_avg_sell_price := sell_wacb
    realized_pct := realized_pct
    shares_awarded := award_shares
    award_current_value := award_cur_val
    net_open_mkt_shares := net_open_mkt
    pct_trades_on_10b5_plan := pct_plan }

/-- Upsert keyed by (ticker, insider_name): replace every field of the
existing record, or insert a new one. -/
def upsertAnalytics (table : List InsiderAnalytics) (row : InsiderAnalytics) :
    List InsiderAnalytics :=
  if table.any (fun a => a.ticker == row.ticker && a.insider_name == row.insider_name) then
    table.map (fun a =>
      if a.ticker == row.ticker && a.insider_name == row.insider_name then row else a)
  else table ++ [row]

/-- ingestion/analytics.py `refresh_analytics_for_ticker`. The store and
transport layer can raise anywhere inside the try block (session queries,
price lookups, commit); `conn t = false` models such a failure for ticker
`t`. On failure the code runs `session.rollback()` and re-raises: the
store is returned unchanged together with the pending exception. All
writes are staged in the session and applied by the single final commit. -/
def refresh_analytics_for_ticker (conn : String → Bool) (db : DB) (ticker : String) :
    DB × Nat × Option Unit :=
  if conn ticker = false then
    (db, 0, some ())
  else
    let rows_q := db.filings.filter (fun r => r.ticker == ticker)
    if rows_q.isEmpty then (db, 0, none)
    else
      let groups := groupBy (fun r => r.insider_name) rows_q
      let upserts := groups.map (fun g => _compute_for_insider db.prices ticker g.1 g.2)
      (⟨db.filings, db.prices, db.flags, upserts.foldl upsertAnalytics db.analytics⟩,
        groups.length, none)

/-- ingestion/analytics.py `refresh_all_analytics`: iterate the watchlist,
calling `refresh_analytics_for_ticker` with no try/except around the call,
so the first per-ticker exception propagates and ends the loop. The
running total is not observable when the exception propagates. -/
def refresh_all_analytics (conn : String → Bool) (companies : List String) (db : DB) :
    DB × Nat × Option Unit :=
  match companies with
  | [] => (db, 0, none)
  | t :: ts =>
    match refresh_analytics_for_ticker conn db t with
    | (db1, n, none) =>
      match refresh_all_analytics conn ts db1 with
      | (db2, m, e) => (db2, n + m, e)
    | (db1, _, some e) => (db1, 0, some e)

/-- Flag type constants of ingestion/flags.py `FlagType`. -/
def FlagType.CEO_CFO_PURCHASE : String := "CEO_CFO_PURCHASE"

/-- Flag type `CLUSTER_BUY`. -/
def FlagType.CLUSTER_BUY : String := "CLUSTER_BUY"

/-- Flag type `LARGE_PURCHASE`. -/
def FlagType.LARGE_PURCHASE : String := "LARGE_PURCHASE"

/-- Flag type `FIRST_PURCHASE`. -/
def FlagType.FIRST_PURCHASE : String := "FIRST_PURCHASE"

/-- Flag type `REVERSAL_BUY` (legacy). -/
def FlagType.REVERSAL_BUY : String := "REVERSAL_BUY"

/-- Flag type `BULL_REVERSAL`. -/
def FlagType.BULL_REVERSAL : String := "BULL_REVERSAL"

/-- Flag type `CONVICTION_BUY`. -/
def FlagType.CONVICTION_BUY : String := "CONVICTION_BUY"

/-- Flag type `DIP_BUY`. -/
def FlagType.DIP_BUY : String := "DIP_BUY"

/-- ingestion/flags.py `_already_flagged`: is a flag with this accession
identifier and flag type already recorded in the flags table. -/
def _already_flagged (flags : List Flag) (accession_no flag_type : String) : Bool :=
  flags.any (fun g => g.accession_no == accession_no && g.flag_type == flag_type)

/-- Per-row body of `_flag_ceo_cfo_purchases`: the keyword test on the
lower-cased officer title, the dedup lookup, and the emitted flag. The
description f-string formats `f.shares` with `:,.0f` and `f.price` with
`:.2f` (flags.py lines 59-60), and Python raises a TypeError when either
is None, aborting the whole detection run; the `value_str` format is
guarded by truthiness and cannot raise. The error is the `.error` case. -/
def ceoRow (flags : List Flag) (f : Section16Filing) : Except Unit (Option Flag) :=
  if f.transaction_code ≠ some "P" ∨ f.is_derivative then .ok none
  else
    let title := lowerStr (f.officer_title.getD "")
    if ¬ (["chief executive", "ceo", "chief financial", "cfo"].any
        (fun k => strContains title k)) then .ok none
    else if _already_flagged flags f.accession_no FlagType.CEO_CFO_PURCHASE then .ok none
    else if f.shares.isSome ∧ f.price.isSome then
      .ok (some { ticker := f.ticker, insider_name := f.insider_name,
                  accession_no := f.accession_no,
                  flag_type := FlagType.CEO_CFO_PURCHASE, severity := "HIGH" })
    else .error ()

/-- The detector loop with the exception channel: rows are processed in
order, at most one flag is appended per row, and a TypeError raised while
building a description aborts the loop at the raising row. -/
def exceptFilterMap (row : Section16Filing → Except Unit (Option Flag)) :
    List Section16Filing → Except Unit (List Flag)
  | [] => .ok []
  | f :: fs =>
    match row f with
    | .error e => .error e
    | .ok none => exceptFilterMap row fs
    | .ok (some g) =>
      match exceptFilterMap row fs with
      | .error e => .error e
      | .ok l => .ok (g :: l)

/-- ingestion/flags.py `_flag_ceo_cfo_purchases`: the loop appends at most
one flag per row and can raise while formatting a description. -/
def _flag_ceo_cfo_purchases (new_filings : List Section16Filing) (flags : List Flag) :
    Except Unit (List Flag) :=
  exceptFilterMap (ceoRow flags) new_filings

/-- Per-row body of `_flag_large_purchases`. The Python guard is
`if not f.value or f.value < threshold`, so a missing or zero value is
skipped by truthiness before the threshold test. The description formats
`f.shares` with `:,.0f` (line 86) and raises a TypeError when shares is
None (`f.value` is present by the guard). -/
def largeRow (flags : List Flag) (f : Section16Filing) : Except Unit (Option Flag) :=
  if f.transaction_code ≠ some "P" ∨ f.is_derivative then .ok none
  else
    match f.value with
    | none => .ok none
    | some v =>
      if v = 0 ∨ v < 500000 then .ok none
      else if _already_flagged flags f.accession_no FlagType.LARGE_PURCHASE then .ok none
      else if f.shares.isSome then
        .ok (some { ticker := f.ticker, insider_name := f.insider_name,
                    accession_no := f.accession_no,
                    flag_type := FlagType.LARGE_PURCHASE,
                    severity := if 2000000 ≤ v then "HIGH" else "MEDIUM" })
      else .error ()

/-- ingestion/flags.py `_flag_large_purchases`. -/
def _flag_large_purchases (new_filings : List Section16Filing) (flags : List Flag) :
    Except Unit (List Flag) :=
  exceptFilterMap (largeRow flags) new_filings

/-- Per-row body of `_flag_first_purchases`. The prior-purchase query
filters on ticker, insider and code P with a different accession
identifier; it has no `is_derivative` filter and no transaction-date
requirement. The description formats `f.shares` with `:,.0f` and
`f.price` with `:.2f` (line 160) and raises a TypeError when either is
None. -/
def firstRow (hist : List Section16Filing) (flags : List Flag) (f : Section16Filing) :
    Except Unit (Option Flag) :=
  if f.transaction_code ≠ some "P" ∨ f.is_derivative then .ok none
  else if _already_flagged flags f.accession_no FlagType.FIRST_PURCHASE then .ok none
  else if hist.any (fun r =>
      r.ticker == f.ticker && r.insider_name == f.insider_name &&
      r.transaction_code == some "P" && r.accession_no != f.accession_no) then .ok none
  else if f.shares.isSome ∧ f.price.isSome then
    .ok (some { ticker := f.ticker, insider_name := f.insider_name,
                accession_no := f.accession_no,
                flag_type := FlagType.FIRST_PURCHASE, severity := "MEDIUM" })
  else .error ()

/-- ingestion/flags.py `_flag_first_purchases`. -/
def _flag_first_purchases (new_filings hist : List Section16Filing) (flags : List Flag) :
    Except Unit (List Flag) :=
  exceptFilterMap (firstRow hist flags) new_filings

/-- Per-row body of the legacy `_flag_reversal_buys`; `today` is the value
of `date.today()` at run time, cutoff 90 days earlier. A history row with
no transaction date fails the SQL `>= cutoff` comparison. The description
formats `f.shares` with `:,.0f` and `f.price` with `:.2f` (lines 194-195)
and raises a TypeError when either is None. -/
def reversalRow (today : ℤ) (hist : List Section16Filing) (flags : List Flag)
    (f : Section16Filing) : Except Unit (Option Flag) :=
  if f.transaction_code ≠ some "P" ∨ f.is_derivative then .ok none
  else if _already_flagged flags f.accession_no FlagType.REVERSAL_BUY then .ok none
  else
    let cutoff := today - 90
    let recent := hist.filter (fun r =>
      r.ticker == f.ticker && r.insider_name == f.insider_name &&
      (match r.transaction_date with
       | some d => decide (cutoff ≤ d)
       | none => false) &&
      (r.transaction_code == some "P" || r.transaction_code == some "S") &&
      r.accession_no != f.accession_no)
    let had_sells := recent.any (fun r => r.transaction_code == some "S")
    let had_buys := recent.any (fun r => r.transaction_code == some "P")
    if had_sells && !had_buys then
      if f.shares.isSome ∧ f.price.isSome then
        .ok (some { ticker := f.ticker, insider_name := f.insider_name,
                    accession_no := f.accession_no,
                    flag_type := FlagType.REVERSAL_BUY, severity := "MEDIUM" })
      else .error ()
    else .ok none

/-- ingestion/flags.py `_flag_reversal_buys` (legacy detector, still invoked
by the orchestrator). -/
def _flag_reversal_buys (today : ℤ) (new_filings hist : List Section16Filing)
    (flags : List Flag) : Except Unit (List Flag) :=
  exceptFilterMap (reversalRow today hist flags) new_filings

/-- Comparison placing rows in descending transaction-date order (the
`order_by(... desc())` of the bull-reversal prior query; the filter leaves
no missing dates). -/
def txnDateGt (a b : Section16Filing) : Bool :=
  match a.transaction_date, b.transaction_date with
  | some x, some y => y < x
  | some _, none => false
  | none, some _ => true
  | none, none => false

/-- First row with minimal transaction date (Python `min(..., key=...)`,
which keeps the first minimum). -/
def minByTxnDate (l : List Section16Filing) : Option Section16Filing :=
  match l with
  | [] => none
  | x :: xs =>
    some (xs.foldl (fun m r =>
      if r.transaction_date.getD 0 < m.transaction_date.getD 0 then r else m) x)

/-- Per-row body of `_flag_bull_reversals`. Both description branches
format `f.shares` with `:,.0f` and `f.price` with `:.2f` (lines 247 and
255-256) and raise a TypeError when either is None. -/
def bullRow (hist : List Section16Filing) (flags : List Flag) (f : Section16Filing) :
    Except Unit (Option Flag) :=
  if f.transaction_code ≠ some "P" ∨ f.is_derivative then .ok none
  else
    match f.transaction_date with
    | none => .ok none
    | some fd =>
      if _already_flagged flags f.accession_no FlagType.BULL_REVERSAL then .ok none
      else
        let prior := sortBy txnDateGt (hist.filter (fun r =>
          r.ticker == f.ticker && r.insider_name == f.insider_name &&
          (r.transaction_code == some "P" || r.transaction_code == some "S") &&
          r.is_derivative == false &&
          (match r.transaction_date with
           | some d => decide (d < fd)
           | none => false)))
        if prior.isEmpty then .ok none
        else
          let consecutive_sells :=
            (prior.takeWhile (fun r => r.transaction_code == some "S")).length
          let all_prior_sells := prior.filter (fun r => r.transaction_code == some "S")
          let all_prior_buys := prior.filter (fun r => r.transaction_code == some "P")
          let sell_span_days :=
            if ¬ all_prior_sells.isEmpty ∧ all_prior_buys.isEmpty then
              fd - ((minByTxnDate all_prior_sells).bind
                (fun r => r.transaction_date)).getD 0
            else 0
          if 3 ≤ consecutive_sells then
            if f.shares.isSome ∧ f.price.isSome then
              .ok (some { ticker := f.ticker, insider_name := f.insider_name,
                          accession_no := f.accession_no,
                          flag_type := FlagType.BULL_REVERSAL, severity := "HIGH" })
            else .error ()
          else if 365 ≤ sell_span_days then
            if f.shares.isSome ∧ f.price.isSome then
              .ok (some { ticker := f.ticker, insider_name := f.insider_name,
                          accession_no := f.accession_no,
                          flag_type := FlagType.BULL_REVERSAL, severity := "HIGH" })
            else .error ()
          else .ok none

/-- ingestion/flags.py `_flag_bull_reversals`. -/
def _flag_bull_reversals (new_filings hist : List Section16Filing) (flags : List Flag) :
    Except Unit (List Flag) :=
  exceptFilterMap (bullRow hist flags) new_filings

/-- Per-row body of `_flag_conviction_buys`. The Python guard
`if not f.shares or not f.shares_remaining` skips missing and zero values
by truthiness; `prior = shares_remaining - shares` must be strictly
positive and the ratio at least 0.10 (0.25 for HIGH). -/
def convictionRow (flags : List Flag) (f : Section16Filing) : Option Flag :=
  if f.transaction_code ≠ some "P" ∨ f.is_derivative then none
  else
    match f.shares, f.shares_remaining with
    | some s, some rem =>
      if s = 0 ∨ rem = 0 then none
      else
        let prior_shares := rem - s
        if prior_shares ≤ 0 then none
        else
          let pct_increase := s / prior_shares
          if pct_increase < 1/10 then none
          else if _already_flagged flags f.accession_no FlagType.CONVICTION_BUY then none
          else some { ticker := f.ticker, insider_name := f.insider_name,
                      accession_no := f.accession_no,
                      flag_type := FlagType.CONVICTION_BUY,
                      severity := if 1/4 ≤ pct_increase then "HIGH" else "MEDIUM" }
    | _, _ => none

/-- ingestion/flags.py `_flag_conviction_buys`. -/
def _flag_conviction_buys (new_filings : List Section16Filing) (flags : List Flag) :
    List Flag :=
  new_filings.filterMap (convictionRow flags)

/-- Latest close on or before a cutoff date for a ticker (the descending
`PriceHistory` lookup of the dip detector). -/
def latestCloseOnOrBefore (prices : List PricePoint) (ticker : String) (cutoff : ℤ) :
    Option ℚ :=
  ((sortBy ppDateGt (prices.filter (fun p => p.ticker == ticker && p.date ≤ cutoff))).head?).map
    (fun p => p.close)

/-- Per-row body of `_flag_dip_buys`: transaction price or fallback close,
then the one-year (≤ -50%) and one-month (≤ -20%) drawdown tests. The
description formats `f.shares` with `:,.0f` (line 374) and raises a
TypeError when shares is None (`txn_price` is a present float there). -/
def dipRow (prices : List PricePoint) (flags : List Flag) (f : Section16Filing) :
    Except Unit (Option Flag) :=
  if f.transaction_code ≠ some "P" ∨ f.is_derivative then .ok none
  else
    match f.transaction_date with
    | none => .ok none
    | some fd =>
      if _already_flagged flags f.accession_no FlagType.DIP_BUY then .ok none
      else
        let txn_price0 : Option ℚ :=
          match f.price with
          | some p => if 0 < p then some p else none
          | none => none
        let txn_price :=
          match txn_price0 with
          | some p => some p
          | none => get_price_on_or_after prices f.ticker fd
        match txn_price with
        | none => .ok none
        | some tp =>
          if tp = 0 then .ok none
          else
            let row_1yr := latestCloseOnOrBefore prices f.ticker (fd - 365)
            let row_1mo := latestCloseOnOrBefore prices f.ticker (fd - 30)
            let hit_1yr :=
              match row_1yr with
              | some c => decide ((tp / c - 1) * 100 ≤ -50)
              | none => false
            let hit_1mo :=
              match row_1mo with
              | some c => decide ((tp / c - 1) * 100 ≤ -20)
              | none => false
            if hit_1yr || hit_1mo then
              if f.shares.isSome then
                .ok (some { ticker := f.ticker, insider_name := f.insider_name,
                            accession_no := f.accession_no,
                            flag_type := FlagType.DIP_BUY, severity := "HIGH" })
              else .error ()
            else .ok none

/-- ingestion/flags.py `_flag_dip_buys`. -/
def _flag_dip_buys (new_filings : List Section16Filing) (prices : List PricePoint)
    (flags : List Flag) : Except Unit (List Flag) :=
  exceptFilterMap (dipRow prices flags) new_filings

/-- The eligible rows of the cluster detector: non-derivative open-market
purchases with a transaction date. -/
def clusterEligible (new_filings : List Section16Filing) : List Section16Filing :=
  new_filings.filter (fun f =>
    f.transaction_code == some "P" && !f.is_derivative && f.transaction_date.isSome)

/-- Transaction date of an eligible row (always present there). -/
def dateVal (f : Section16Filing) : ℤ := f.transaction_date.getD 0

/-- Number of distinct insider names in a cluster (Python set size). -/
def distinctInsiders (l : List Section16Filing) : Nat :=
  ((l.map (fun f => f.insider_name)).dedup).length

/-- `", ".join(sorted(insiders)[:5])` of the cluster detector. -/
def clusterNames (l : List Section16Filing) : String :=
  joinWith ", " ((sortBy strLt ((l.map (fun f => f.insider_name)).dedup)).take 5)

/-- `min(b.accession_no for b in cluster)`; the cluster is never empty
(it contains its anchor). -/
def minAccession (l : List Section16Filing) : String :=
  match l.map (fun f => f.accession_no) with
  | [] => ""
  | a :: as => as.foldl (fun m s => if strLt s m then s else m) a

/-- The flag the cluster detector emits for one qualifying window. -/
def mkClusterFlag (ticker : String) (cluster : List Section16Filing) : Flag :=
  { ticker := ticker, insider_name := clusterNames cluster,
    accession_no := minAccession cluster,
    flag_type := FlagType.CLUSTER_BUY, severity := "HIGH" }

/-- The anchor loop of `_flag_cluster_buys` over one ticker's sorted buys:
each anchor opens a 7-day window; on the first qualifying window whose
minimal accession is not yet flagged the loop emits one flag and breaks;
an already-flagged window is skipped with `continue`. -/
def clusterLoop (flags : List Flag) (ticker : String) :
    List Section16Filing → List Flag
  | [] => []
  | anchor :: rest =>
    let window_end := dateVal anchor + 7
    let cluster := (anchor :: rest).filter (fun b => dateVal b ≤ window_end)
    if 3 ≤ distinctInsiders cluster then
      if _already_flagged flags (minAccession cluster) FlagType.CLUSTER_BUY then
        clusterLoop flags ticker rest
      else
        [mkClusterFlag ticker cluster]
    else clusterLoop flags ticker rest

/-- ingestion/flags.py `_flag_cluster_buys`: group the eligible buys by
ticker, sort each group chronologically, and run the anchor loop. -/
def _flag_cluster_buys (new_filings : List Section16Filing) (flags : List Flag) :
    List Flag :=
  ((groupBy (fun f => f.ticker) (clusterEligible new_filings)).map
    (fun g => clusterLoop flags g.1 (sortBy txnDateLt g.2))).flatten

/-- The detector pass of `detect_and_save_flags` in source order. The sum
`A(...) + B(...) + ...` evaluates the eight detectors left to right, so
the first TypeError raised inside a detector aborts the pass; the cluster
and conviction detectors only format values that are present on their
emitting rows and cannot raise. -/
def detectAll (today : ℤ) (db : DB) (new_filings : List Section16Filing) :
    Except Unit (List Flag) :=
  match _flag_ceo_cfo_purchases new_filings db.flags with
  | .error e => .error e
  | .ok ceo =>
    match _flag_large_purchases new_filings db.flags with
    | .error e => .error e
    | .ok lrg =>
      let clu := _flag_cluster_buys new_filings db.flags
      match _flag_first_purchases new_filings db.filings db.flags with
      | .error e => .error e
      | .ok fpu =>
        match _flag_reversal_buys today new_filings db.filings db.flags with
        | .error e => .error e
        | .ok rev =>
          match _flag_bull_reversals new_filings db.filings db.flags with
          | .error e => .error e
          | .ok bul =>
            let cnv := _flag_conviction_buys new_filings db.flags
            match _flag_dip_buys new_filings db.prices db.flags with
            | .error e => .error e
            | .ok dip =>
              .ok (ceo ++ lrg ++ clu ++ fpu ++ rev ++ bul ++ cnv ++ dip)

/-- ingestion/flags.py `detect_and_save_flags`: run all detectors over the
batch of newly inserted rows; on success every produced flag is committed
and counted, while an exception raised inside a detector rolls the
session back and re-raises, leaving the store unchanged. -/
def detect_and_save_flags (today : ℤ) (db : DB) (new_filings : List Section16Filing) :
    DB × Nat × Option Unit :=
  if new_filings.isEmpty then (db, 0, none)
  else
    match detectAll today db new_filings with
    | .ok all_flags =>
      (⟨db.filings, db.prices, db.flags ++ all_flags, db.analytics⟩,
        all_flags.length, none)
    | .error e => (db, 0, some e)

/-- A filing row with every nullable column missing, used as the base of the
concrete rows in the witnesses and counterexamples below. -/
def blankRow : Section16Filing :=
  { accession_no := "", ticker := "", insider_name := "",
    insider_cik := none, company_name := none, officer_title := none,
    is_director := none, is_officer := none, is_ten_pct_owner := none,
    filing_date := none, transaction_date := none, transaction_code := none,
    shares := none, price := none, value := none, shares_remaining := none,
    is_derivative := false, is_10b5_1_plan := none }

/-- Claim C2 counterexample: the claim reads that `base = 10`, `new = 0`
yields exactly -100 and not a missing value, but Python float truthiness
makes `_price_pct` return `None` whenever the new price equals 0. -/
theorem price_pct_zero_new_counterexample : _price_pct (some 10) (some 0) = none := by
  decide

/-- Claim C2 (amended): `_price_pct` returns no value exactly when either
input is missing, the base is not strictly positive, or the new price
equals 0 (the extra case the truthiness guard adds); whenever the base is
strictly positive and the new price is present and non-zero it returns
exactly (new - base) / base * 100. -/
theorem price_pct_amended :
    (∀ a b : Option ℚ,
      (_price_pct a b = none ↔
        a = none ∨ b = none ∨ b = some 0 ∨ ∃ x, a = some x ∧ x ≤ 0))
    ∧ ∀ x y : ℚ, 0 < x → y ≠ 0 →
        _price_pct (some x) (some y) = some ((y - x) / x * 100) := by
  constructor
  · intro a b
    rcases a with _ | x
    · simp [_price_pct]
    rcases b with _ | y
    · simp [_price_pct]
    simp only [_price_pct, Option.some.injEq, reduceCtorEq, false_or]
    rcases eq_or_ne y 0 with hy | hy
    · subst hy
      rw [if_neg (by tauto)]
      simp
    · rcases le_or_lt x 0 with hx | hx
      · rw [if_neg (fun hc => absurd hc.2.2 (not_lt.mpr hx))]
        simp only [true_iff]
        exact Or.inr ⟨x, rfl, hx⟩
      · rw [if_pos ⟨ne_of_gt hx, hy, hx⟩]
        simp only [reduceCtorEq, false_iff]
        rintro (h | ⟨z, hz, hzle⟩)
        · exact hy h
        · cases hz
          exact absurd hx (not_lt.mpr hzle)
  · intro x y hx hy
    simp [_price_pct, ne_of_gt hx, hy, hx]

/-- Claim C2 witness: the positive branch of the amended claim evaluated at
base 2, new 3. -/
theorem price_pct_amended_witness :
    (0 : ℚ) < 2 ∧ (3 : ℚ) ≠ 0 ∧ _price_pct (some 2) (some 3) = some 50 := by
  refine ⟨by norm_num, by norm_num, ?_⟩
  have h := price_pct_amended.2 2 3 (by norm_num) (by norm_num)
  rw [h]; norm_num

/-- The positions of two parallel nullable sequences where both entries are
present, stated as in the spec (used to compare `_wacb` against its
specification). -/
def presentPairs (shares prices : List (Option ℚ)) : List (ℚ × ℚ) :=
  (shares.zip prices).filterMap (fun sp => sp.1.bind (fun s => sp.2.map (fun p => (s, p))))

/-- Claim C8: `_wacb` filters to positions where shares and price are both
present; on a non-empty filtered set with non-zero share sum it returns
the share-weighted average price, and it returns no value when the
filtered set is empty or the share sum is zero — in particular on
all-missing input, with no exception and no NaN (totality of the Lean
function). -/
theorem wacb_spec_correct :
    (∀ shares prices : List (Option ℚ),
      (presentPairs shares prices ≠ [] →
          ((presentPairs shares prices).map Prod.fst).sum ≠ 0 →
          _wacb shares prices =
            some (((presentPairs shares prices).map (fun sp => sp.1 * sp.2)).sum /
              ((presentPairs shares prices).map Prod.fst).sum))
        ∧ (presentPairs shares prices = [] ∨
            ((presentPairs shares prices).map Prod.fst).sum = 0 →
            _wacb shares prices = none))
    ∧ ∀ n : Nat, _wacb (List.replicate n none) (List.replicate n none) = none := by
  have hfun : ∀ shares prices : List (Option ℚ),
      (shares.zip prices).filterMap
        (fun sp : Option ℚ × Option ℚ =>
          match sp.1, sp.2 with
          | some s, some p => some (s, p)
          | _, _ => none) = presentPairs shares prices := by
    intro shares prices
    apply List.filterMap_congr
    rintro ⟨s, p⟩ _
    cases s <;> cases p <;> rfl
  constructor
  · intro shares prices
    constructor
    · intro hne hsum
      simp only [_wacb, hfun]
      rw [if_neg]
      push_neg
      refine ⟨?_, hsum⟩
      cases h : presentPairs shares prices with
      | nil => exact absurd h hne
      | cons a l => simp
    · intro h
      simp only [_wacb, hfun]
      rw [if_pos]
      rcases h with h | h
      · exact Or.inl (by simp [h])
      · exact Or.inr h
  · intro n
    have hnil : ((List.replicate n (none : Option ℚ)).zip
        (List.replicate n (none : Option ℚ))).filterMap
        (fun sp : Option ℚ × Option ℚ =>
          match sp.1, sp.2 with
          | some s, some p => some (s, p)
          | _, _ => none) = [] := by
      rw [List.filterMap_eq_nil_iff]
      rintro ⟨s, p⟩ hsp
      have h1 := (List.of_mem_zip hsp).1
      rw [List.eq_of_mem_replicate h1]
    simp [_wacb, hnil]

/-- Claim C8 witness: one present pair (shares 1, price 2) next to a
missing pair gives the weighted average 2. -/
theorem wacb_spec_correct_witness :
    presentPairs [some (1 : ℚ), none] [some 2, some 5] ≠ [] ∧
      _wacb [some (1 : ℚ), none] [some 2, some 5] = some 2 := by
  refine ⟨by decide, ?_⟩
  have h := (wacb_spec_correct.1 [some (1 : ℚ), none] [some 2, some 5]).1
    (by decide) (by simp [presentPairs, List.filterMap_cons, Option.bind])
  rw [h]
  simp [presentPairs, List.filterMap_cons, Option.bind]

/-- Dedup lookups are monotone in the flag table. -/
theorem already_flagged_mono {flags1 flags2 : List Flag}
    (hsub : ∀ g ∈ flags1, g ∈ flags2) {a T : String}
    (hf : _already_flagged flags1 a T = true) : _already_flagged flags2 a T = true := by
  simp only [_already_flagged, List.any_eq_true] at hf ⊢
  obtain ⟨g, hg, hp⟩ := hf
  exact ⟨g, hsub g hg, hp⟩

/-- A recorded flag makes the dedup lookup for its own pair succeed. -/
theorem already_flagged_of_mem {flags : List Flag} {g : Flag} (h : g ∈ flags) :
    _already_flagged flags g.accession_no g.flag_type = true := by
  simp only [_already_flagged, List.any_eq_true]
  exact ⟨g, h, by simp⟩

/-- Every flag the CEO/CFO detector emits carries the triggering accession
identifier and its own flag type, and its pair was not yet recorded. -/
theorem ceoRow_spec : ∀ (flags : List Flag) (f : Section16Filing) (g : Flag),
    ceoRow flags f = .ok (some g) →
    g.accession_no = f.accession_no ∧ g.flag_type = FlagType.CEO_CFO_PURCHASE ∧
      _already_flagged flags f.accession_no FlagType.CEO_CFO_PURCHASE = false := by
  intro flags f g h
  simp only [ceoRow] at h
  repeat' split at h
  all_goals cases h
  all_goals exact ⟨rfl, rfl, by simp_all⟩

/-- The CEO/CFO row body only raises the description TypeError on rows whose
pair is not yet recorded: the dedup skip precedes the formatting. -/
theorem ceoRow_err : ∀ (flags : List Flag) (f : Section16Filing) (e : Unit),
    ceoRow flags f = .error e →
    _already_flagged flags f.accession_no FlagType.CEO_CFO_PURCHASE = false := by
  intro flags f e h
  simp only [ceoRow] at h
  repeat' split at h
  all_goals cases h
  all_goals simp_all

/-- The CEO/CFO row body reads the flag table only through the dedup
lookup. -/
theorem ceoRow_flags_eq : ∀ (flags1 flags2 : List Flag) (f : Section16Filing),
    _already_flagged flags1 f.accession_no FlagType.CEO_CFO_PURCHASE =
      _already_flagged flags2 f.accession_no FlagType.CEO_CFO_PURCHASE →
    ceoRow flags1 f = ceoRow flags2 f := by
  intro flags1 flags2 f h
  unfold ceoRow
  rw [h]

/-- Emission properties of the large-purchase row body. -/
theorem largeRow_spec : ∀ (flags : List Flag) (f : Section16Filing) (g : Flag),
    largeRow flags f = .ok (some g) →
    g.accession_no = f.accession_no ∧ g.flag_type = FlagType.LARGE_PURCHASE ∧
      _already_flagged flags f.accession_no FlagType.LARGE_PURCHASE = false := by
  intro flags f g h
  simp only [largeRow] at h
  repeat' split at h
  all_goals cases h
  all_goals exact ⟨rfl, rfl, by simp_all⟩

/-- The large-purchase row body only raises the description TypeError on
rows whose pair is not yet recorded. -/
theorem largeRow_err : ∀ (flags : List Flag) (f : Section16Filing) (e : Unit),
    largeRow flags f = .error e →
    _already_flagged flags f.accession_no FlagType.LARGE_PURCHASE = false := by
  intro flags f e h
  simp only [largeRow] at h
  repeat' split at h
  all_goals cases h
  all_goals simp_all

/-- The large-purchase row body reads the flag table only through the dedup
lookup. -/
theorem largeRow_flags_eq : ∀ (flags1 flags2 : List Flag) (f : Section16Filing),
    _already_flagged flags1 f.accession_no FlagType.LARGE_PURCHASE =
      _already_flagged flags2 f.accession_no FlagType.LARGE_PURCHASE →
    largeRow flags1 f = largeRow flags2 f := by
  intro flags1 flags2 f h
  unfold largeRow
  rw [h]

/-- Emission properties of the first-purchase row body. -/
theorem firstRow_spec : ∀ (hist : List Section16Filing) (flags : List Flag)
    (f : Section16Filing) (g : Flag),
    firstRow hist flags f = .ok (some g) →
    g.accession_no = f.accession_no ∧ g.flag_type = FlagType.FIRST_PURCHASE ∧
      _already_flagged flags f.accession_no FlagType.FIRST_PURCHASE = false := by
  intro hist flags f g h
  simp only [firstRow] at h
  repeat' split at h
  all_goals cases h
  all_goals exact ⟨rfl, rfl, by simp_all⟩

/-- The first-purchase row body only raises the description TypeError on
rows whose pair is not yet recorded. -/
theorem firstRow_err : ∀ (hist : List Section16Filing) (flags : List Flag)
    (f : Section16Filing) (e : Unit),
    firstRow hist flags f = .error e →
    _already_flagged flags f.accession_no FlagType.FIRST_PURCHASE = false := by
  intro hist flags f e h
  simp only [firstRow] at h
  repeat' split at h
  all_goals cases h
  all_goals simp_all

/-- The first-purchase row body reads the flag table only through the dedup
lookup. -/
theorem firstRow_flags_eq : ∀ (hist : List Section16Filing) (flags1 flags2 : List Flag)
    (f : Section16Filing),
    _already_flagged flags1 f.accession_no FlagType.FIRST_PURCHASE =
      _already_flagged flags2 f.accession_no FlagType.FIRST_PURCHASE →
    firstRow hist flags1 f = firstRow hist flags2 f := by
  intro hist flags1 flags2 f h
  unfold firstRow
  rw [h]

/-- Emission properties of the legacy reversal row body. -/
theorem reversalRow_spec : ∀ (today : ℤ) (hist : List Section16Filing)
    (flags : List Flag) (f : Section16Filing) (g : Flag),
    reversalRow today hist flags f = .ok (some g) →
    g.accession_no = f.accession_no ∧ g.flag_type = FlagType.REVERSAL_BUY ∧
      _already_flagged flags f.accession_no FlagType.REVERSAL_BUY = false := by
  intro today hist flags f g h
  simp only [reversalRow] at h
  repeat' split at h
  all_goals cases h
  all_goals exact ⟨rfl, rfl, by simp_all⟩

/-- The legacy reversal row body only raises the description TypeError on
rows whose pair is not yet recorded. -/
theorem reversalRow_err : ∀ (today : ℤ) (hist : List Section16Filing)
    (flags : List Flag) (f : Section16Filing) (e : Unit),
    reversalRow today hist flags f = .error e →
    _already_flagged flags f.accession_no FlagType.REVERSAL_BUY = false := by
  intro today hist flags f e h
  simp only [reversalRow] at h
  repeat' split at h
  all_goals cases h
  all_goals simp_all

/-- The legacy reversal row body reads the flag table only through the
dedup lookup. -/
theorem reversalRow_flags_eq : ∀ (today : ℤ) (hist : List Section16Filing)
    (flags1 flags2 : List Flag) (f : Section16Filing),
    _already_flagged flags1 f.accession_no FlagType.REVERSAL_BUY =
      _already_flagged flags2 f.accession_no FlagType.REVERSAL_BUY →
    reversalRow today hist flags1 f = reversalRow today hist flags2 f := by
  intro today hist flags1 flags2 f h
  unfold reversalRow
  rw [h]

/-- Emission properties of the bull-reversal row body. -/
theorem bullRow_spec : ∀ (hist : List Section16Filing) (flags : List Flag)
    (f : Section16Filing) (g : Flag),
    bullRow hist flags f = .ok (some g) →
    g.accession_no = f.accession_no ∧ g.flag_type = FlagType.BULL_REVERSAL ∧
      _already_flagged flags f.accession_no FlagType.BULL_REVERSAL = false := by
  intro hist flags f g h
  simp only [bullRow] at h
  repeat' split at h
  all_goals cases h
  all_goals exact ⟨rfl, rfl, by simp_all⟩

/-- The bull-reversal row body only raises the description TypeError on
rows whose pair is not yet recorded. -/
theorem bullRow_err : ∀ (hist : List Section16Filing) (flags : List Flag)
    (f : Section16Filing) (e : Unit),
    bullRow hist flags f = .error e →
    _already_flagged flags f.accession_no FlagType.BULL_REVERSAL = false := by
  intro hist flags f e h
  simp only [bullRow] at h
  repeat' split at h
  all_goals cases h
  all_goals simp_all

/-- The bull-reversal row body reads the flag table only through the dedup
lookup. -/
theorem bullRow_flags_eq : ∀ (hist : List Section16Filing) (flags1 flags2 : List Flag)
    (f : Section16Filing),
    _already_flagged flags1 f.accession_no FlagType.BULL_REVERSAL =
      _already_flagged flags2 f.accession_no FlagType.BULL_REVERSAL →
    bullRow hist flags1 f = bullRow hist flags2 f := by
  intro hist flags1 flags2 f h
  unfold bullRow
  rw [h]

/-- Emission properties of the conviction-buy row body. -/
theorem convictionRow_spec : ∀ (flags : List Flag) (f : Section16Filing) (g : Flag),
    convictionRow flags f = some g →
    g.accession_no = f.accession_no ∧ g.flag_type = FlagType.CONVICTION_BUY ∧
      _already_flagged flags f.accession_no FlagType.CONVICTION_BUY = false := by
  intro flags f g h
  simp only [convictionRow] at h
  split at h
  · exact absurd h (by simp)
  split at h
  · split at h
    · exact absurd h (by simp)
    split at h
    · exact absurd h (by simp)
    split at h
    · exact absurd h (by simp)
    split at h
    · exact absurd h (by simp)
    rename_i hfl
    cases h
    exact ⟨rfl, rfl, by simpa using hfl⟩
  · exact absurd h (by simp)

/-- The conviction-buy row body reads the flag table only through the dedup
lookup. -/
theorem convictionRow_flags_eq : ∀ (flags1 flags2 : List Flag) (f : Section16Filing),
    _already_flagged flags1 f.accession_no FlagType.CONVICTION_BUY =
      _already_flagged flags2 f.accession_no FlagType.CONVICTION_BUY →
    convictionRow flags1 f = convictionRow flags2 f := by
  intro flags1 flags2 f h
  unfold convictionRow
  rw [h]

/-- Emission properties of the dip-buy row body. -/
theorem dipRow_spec : ∀ (prices : List PricePoint) (flags : List Flag)
    (f : Section16Filing) (g : Flag),
    dipRow prices flags f = .ok (some g) →
    g.accession_no = f.accession_no ∧ g.flag_type = FlagType.DIP_BUY ∧
      _already_flagged flags f.accession_no FlagType.DIP_BUY = false := by
  intro prices flags f g h
  simp only [dipRow] at h
  repeat' split at h
  all_goals cases h
  all_goals exact ⟨rfl, rfl, by simp_all⟩

/-- The dip-buy row body only raises the description TypeError on rows whose
pair is not yet recorded. -/
theorem dipRow_err : ∀ (prices : List PricePoint) (flags : List Flag)
    (f : Section16Filing) (e : Unit),
    dipRow prices flags f = .error e →
    _already_flagged flags f.accession_no FlagType.DIP_BUY = false := by
  intro prices flags f e h
  simp only [dipRow] at h
  repeat' split at h
  all_goals cases h
  all_goals simp_all

/-- The dip-buy row body reads the flag table only through the dedup
lookup. -/
theorem dipRow_flags_eq : ∀ (prices : List PricePoint) (flags1 flags2 : List Flag)
    (f : Section16Filing),
    _already_flagged flags1 f.accession_no FlagType.DIP_BUY =
      _already_flagged flags2 f.accession_no FlagType.DIP_BUY →
    dipRow prices flags1 f = dipRow prices flags2 f := by
  intro prices flags1 flags2 f h
  unfold dipRow
  rw [h]

/-- A row body that only reads the flag table through the dedup lookup and
never emits an already-recorded pair emits nothing when its pair is
recorded. -/
theorem row_none_of_flagged {row : List Flag → Section16Filing → Option Flag} {T : String}
    (hspec : ∀ (flags : List Flag) (f : Section16Filing) (g : Flag),
      row flags f = some g →
      g.accession_no = f.accession_no ∧ g.flag_type = T ∧
        _already_flagged flags f.accession_no T = false)
    {flags : List Flag} {f : Section16Filing}
    (hf : _already_flagged flags f.accession_no T = true) : row flags f = none := by
  cases h : row flags f with
  | none => rfl
  | some g =>
    have h2 := (hspec _ _ _ h).2.2
    rw [hf] at h2
    exact absurd h2 (by simp)

/-- Second-run silence of one row body: if the flag table now contains both
the old table and everything the body emitted over the old table, the body
emits nothing. -/
theorem row_second_none {row : List Flag → Section16Filing → Option Flag} {T : String}
    (hspec : ∀ (flags : List Flag) (f : Section16Filing) (g : Flag),
      row flags f = some g →
      g.accession_no = f.accession_no ∧ g.flag_type = T ∧
        _already_flagged flags f.accession_no T = false)
    (hflags : ∀ (flags1 flags2 : List Flag) (f : Section16Filing),
      _already_flagged flags1 f.accession_no T = _already_flagged flags2 f.accession_no T →
      row flags1 f = row flags2 f)
    {flags1 flags2 : List Flag} (hsub : ∀ g ∈ flags1, g ∈ flags2)
    {f : Section16Filing} (hout : ∀ g, row flags1 f = some g → g ∈ flags2) :
    row flags2 f = none := by
  by_cases h2 : _already_flagged flags2 f.accession_no T = true
  · exact row_none_of_flagged hspec h2
  · have h2f : _already_flagged flags2 f.accession_no T = false := by
      cases hb : _already_flagged flags2 f.accession_no T
      · rfl
      · exact absurd hb h2
    have h1f : _already_flagged flags1 f.accession_no T = false := by
      cases hb : _already_flagged flags1 f.accession_no T
      · rfl
      · exact absurd (already_flagged_mono hsub hb) h2
    rw [← hflags flags1 flags2 f (by rw [h1f, h2f])]
    cases hR : row flags1 f with
    | none => rfl
    | some g =>
      obtain ⟨ha, ht, -⟩ := hspec _ _ _ hR
      have hmem := already_flagged_of_mem (hout g hR)
      rw [ha, ht] at hmem
      rw [hmem] at h2f
      exact absurd h2f (by simp)

/-- Second-run silence of a whole per-row detector. -/
theorem filterMap_second_nil {row : List Flag → Section16Filing → Option Flag} {T : String}
    (hspec : ∀ (flags : List Flag) (f : Section16Filing) (g : Flag),
      row flags f = some g →
      g.accession_no = f.accession_no ∧ g.flag_type = T ∧
        _already_flagged flags f.accession_no T = false)
    (hflags : ∀ (flags1 flags2 : List Flag) (f : Section16Filing),
      _already_flagged flags1 f.accession_no T = _already_flagged flags2 f.accession_no T →
      row flags1 f = row flags2 f)
    {batch : List Section16Filing} {flags1 flags2 : List Flag}
    (hsub : ∀ g ∈ flags1, g ∈ flags2)
    (hout : ∀ g ∈ batch.filterMap (row flags1), g ∈ flags2) :
    batch.filterMap (row flags2) = [] := by
  rw [List.filterMap_eq_nil_iff]
  intro f hf
  exact row_second_none hspec hflags hsub
    (fun g hg => hout g (List.mem_filterMap.mpr ⟨f, hf, hg⟩))

/-- Membership in the output of a successful detector loop run: exactly the
flags some row emitted. -/
theorem mem_exceptFilterMap {row : Section16Filing → Except Unit (Option Flag)} :
    ∀ {batch : List Section16Filing} {out : List Flag},
      exceptFilterMap row batch = .ok out →
      ∀ g, g ∈ out ↔ ∃ f ∈ batch, row f = .ok (some g) := by
  intro batch
  induction batch with
  | nil =>
    intro out h g
    cases h
    simp
  | cons a rest ih =>
    intro out h g
    simp only [exceptFilterMap] at h
    split at h
    · cases h
    · rename_i hr
      rw [ih h g]
      constructor
      · rintro ⟨f, hf, hrf⟩
        exact ⟨f, List.mem_cons_of_mem a hf, hrf⟩
      · rintro ⟨f, hf, hrf⟩
        rcases List.mem_cons.mp hf with rfl | hf2
        · rw [hr] at hrf
          cases hrf
        · exact ⟨f, hf2, hrf⟩
    · rename_i g0 hr
      split at h
      · cases h
      · rename_i l0 hrest
        cases h
        constructor
        · intro hg
          rcases List.mem_cons.mp hg with rfl | hl
          · exact ⟨a, List.mem_cons_self a rest, hr⟩
          · obtain ⟨f, hf, hrf⟩ := (ih hrest g).mp hl
            exact ⟨f, List.mem_cons_of_mem a hf, hrf⟩
        · rintro ⟨f, hf, hrf⟩
          rcases List.mem_cons.mp hf with rfl | hf2
          · rw [hr] at hrf
            cases hrf
            exact List.mem_cons_self _ _
          · exact List.mem_cons_of_mem _ ((ih hrest g).mpr ⟨f, hf2, hrf⟩)

/-- The detector loop raises exactly when some row of the batch raises the
description TypeError. -/
theorem exceptFilterMap_error_iff {row : Section16Filing → Except Unit (Option Flag)} :
    ∀ {batch : List Section16Filing},
      exceptFilterMap row batch = .error () ↔ ∃ f ∈ batch, row f = .error () := by
  intro batch
  induction batch with
  | nil => simp [exceptFilterMap]
  | cons a rest ih =>
    simp only [exceptFilterMap]
    constructor
    · intro h
      split at h
      · rename_i e hr
        cases e
        exact ⟨a, List.mem_cons_self a rest, hr⟩
      · rename_i hr
        obtain ⟨f, hf, hrf⟩ := ih.mp h
        exact ⟨f, List.mem_cons_of_mem a hf, hrf⟩
      · rename_i g0 hr
        split at h
        · rename_i e hrest
          cases e
          obtain ⟨f, hf, hrf⟩ := ih.mp hrest
          exact ⟨f, List.mem_cons_of_mem a hf, hrf⟩
        · cases h
    · rintro ⟨f, hf, hrf⟩
      rcases List.mem_cons.mp hf with rfl | hf2
      · rw [hrf]
      · cases hr : row a with
        | error e =>
          cases e
          rfl
        | ok o =>
          cases o with
          | none => exact ih.mpr ⟨f, hf2, hrf⟩
          | some g0 =>
            have h2 := ih.mpr ⟨f, hf2, hrf⟩
            simp only [h2]

/-- An Except row body that only emits and only raises on unrecorded pairs
emits nothing and cannot raise once its pair is recorded. -/
theorem rowE_none_of_flagged
    {row : List Flag → Section16Filing → Except Unit (Option Flag)} {T : String}
    (hspec : ∀ (flags : List Flag) (f : Section16Filing) (g : Flag),
      row flags f = .ok (some g) →
      g.accession_no = f.accession_no ∧ g.flag_type = T ∧
        _already_flagged flags f.accession_no T = false)
    (herr : ∀ (flags : List Flag) (f : Section16Filing) (e : Unit),
      row flags f = .error e → _already_flagged flags f.accession_no T = false)
    {flags : List Flag} {f : Section16Filing}
    (hf : _already_flagged flags f.accession_no T = true) : row flags f = .ok none := by
  cases h : row flags f with
  | error e =>
    have hc := herr _ _ _ h
    rw [hf] at hc
    exact absurd hc (by simp)
  | ok o =>
    cases o with
    | none => rfl
    | some g =>
      have hc := (hspec _ _ _ h).2.2
      rw [hf] at hc
      exact absurd hc (by simp)

/-- Second-run silence of one Except row body: with the old flags and the
row's own first-run output recorded, and the first run not raising on this
row, the body emits nothing and does not raise. -/
theorem rowE_second_none
    {row : List Flag → Section16Filing → Except Unit (Option Flag)} {T : String}
    (hspec : ∀ (flags : List Flag) (f : Section16Filing) (g : Flag),
      row flags f = .ok (some g) →
      g.accession_no = f.accession_no ∧ g.flag_type = T ∧
        _already_flagged flags f.accession_no T = false)
    (herr : ∀ (flags : List Flag) (f : Section16Filing) (e : Unit),
      row flags f = .error e → _already_flagged flags f.accession_no T = false)
    (hflags : ∀ (flags1 flags2 : List Flag) (f : Section16Filing),
      _already_flagged flags1 f.accession_no T = _already_flagged flags2 f.accession_no T →
      row flags1 f = row flags2 f)
    {flags1 flags2 : List Flag} (hsub : ∀ g ∈ flags1, g ∈ flags2)
    {f : Section16Filing}
    (hne : ∀ e, row flags1 f ≠ .error e)
    (hout : ∀ g, row flags1 f = .ok (some g) → g ∈ flags2) :
    row flags2 f = .ok none := by
  by_cases h2 : _already_flagged flags2 f.accession_no T = true
  · exact rowE_none_of_flagged hspec herr h2
  · have h2f : _already_flagged flags2 f.accession_no T = false := by
      cases hb : _already_flagged flags2 f.accession_no T
      · rfl
      · exact absurd hb h2
    have h1f : _already_flagged flags1 f.accession_no T = false := by
      cases hb : _already_flagged flags1 f.accession_no T
      · rfl
      · exact absurd (already_flagged_mono hsub hb) h2
    rw [← hflags flags1 flags2 f (by rw [h1f, h2f])]
    cases hR : row flags1 f with
    | error e => exact absurd hR (hne e)
    | ok o =>
      cases o with
      | none => rfl
      | some g =>
        obtain ⟨ha, ht, -⟩ := hspec _ _ _ hR
        have hmem := already_flagged_of_mem (hout g hR)
        rw [ha, ht] at hmem
        rw [hmem] at h2f
        exact absurd h2f (by simp)

/-- Second-run silence of a whole Except-channel detector: if the first run
over `flags1` succeeded and its output is recorded in `flags2 ⊇ flags1`,
the second run succeeds with no output. -/
theorem exceptFilterMap_second_nil
    {row : List Flag → Section16Filing → Except Unit (Option Flag)} {T : String}
    (hspec : ∀ (flags : List Flag) (f : Section16Filing) (g : Flag),
      row flags f = .ok (some g) →
      g.accession_no = f.accession_no ∧ g.flag_type = T ∧
        _already_flagged flags f.accession_no T = false)
    (herr : ∀ (flags : List Flag) (f : Section16Filing) (e : Unit),
      row flags f = .error e → _already_flagged flags f.accession_no T = false)
    (hflags : ∀ (flags1 flags2 : List Flag) (f : Section16Filing),
      _already_flagged flags1 f.accession_no T = _already_flagged flags2 f.accession_no T →
      row flags1 f = row flags2 f)
    {flags1 flags2 : List Flag} (hsub : ∀ g ∈ flags1, g ∈ flags2) :
    ∀ {batch : List Section16Filing} {out : List Flag},
      exceptFilterMap (row flags1) batch = .ok out →
      (∀ g ∈ out, g ∈ flags2) →
      exceptFilterMap (row flags2) batch = .ok [] := by
  intro batch
  induction batch with
  | nil =>
    intro out h hout
    rfl
  | cons a rest ih =>
    intro out h hout
    simp only [exceptFilterMap] at h
    split at h
    · cases h
    · rename_i hr1
      have hrow2 : row flags2 a = .ok none :=
        rowE_second_none hspec herr hflags hsub
          (fun e he => by rw [hr1] at he; cases he)
          (fun g hg => by rw [hr1] at hg; cases hg)
      simp only [exceptFilterMap, hrow2]
      exact ih h hout
    · rename_i g0 hr1
      split at h
      · cases h
      · rename_i l0 hrest
        cases h
        have hrow2 : row flags2 a = .ok none :=
          rowE_second_none hspec herr hflags hsub
            (fun e he => by rw [hr1] at he; cases he)
            (fun g hg => by
              rw [hr1] at hg
              cases hg
              exact hout g0 (List.mem_cons_self g0 l0))
        simp only [exceptFilterMap, hrow2]
        exact ih hrest (fun g hg => hout g (List.mem_cons_of_mem g0 hg))

/-- Inversion of a successful detector pass: every Except-channel detector
returned without raising and the output is the source-order concatenation
of the eight detector outputs. -/
theorem detectAll_ok_inversion {today : ℤ} {db : DB} {batch : List Section16Filing}
    {l : List Flag} (h : detectAll today db batch = .ok l) :
    ∃ ceo lrg fpu rev bul dip,
      _flag_ceo_cfo_purchases batch db.flags = .ok ceo ∧
      _flag_large_purchases batch db.flags = .ok lrg ∧
      _flag_first_purchases batch db.filings db.flags = .ok fpu ∧
      _flag_reversal_buys today batch db.filings db.flags = .ok rev ∧
      _flag_bull_reversals batch db.filings db.flags = .ok bul ∧
      _flag_dip_buys batch db.prices db.flags = .ok dip ∧
      l = ceo ++ lrg ++ _flag_cluster_buys batch db.flags ++ fpu ++ rev ++ bul ++
        _flag_conviction_buys batch db.flags ++ dip := by
  simp only [detectAll] at h
  split at h
  · cases h
  · rename_i ceo hceo
    split at h
    · cases h
    · rename_i lrg hlrg
      split at h
      · cases h
      · rename_i fpu hfpu
        split at h
        · cases h
        · rename_i rev hrev
          split at h
          · cases h
          · rename_i bul hbul
            split at h
            · cases h
            · rename_i dip hdip
              cases h
              exact ⟨ceo, lrg, fpu, rev, bul, dip, hceo, hlrg, hfpu, hrev, hbul, hdip, rfl⟩

/-- Every flag the cluster loop emits carries its ticker argument, the
CLUSTER_BUY type, and a pair that was not yet recorded. -/
theorem clusterLoop_spec {flags : List Flag} {t : String} :
    ∀ {l : List Section16Filing} {g : Flag}, g ∈ clusterLoop flags t l →
      g.ticker = t ∧ g.flag_type = FlagType.CLUSTER_BUY ∧
        _already_flagged flags g.accession_no FlagType.CLUSTER_BUY = false := by
  intro l
  induction l with
  | nil => intro g hg; simp [clusterLoop] at hg
  | cons a rest ih =>
    intro g hg
    simp only [clusterLoop] at hg
    split at hg
    · split at hg
      · exact ih hg
      · rename_i hfl
        simp only [List.mem_singleton] at hg
        subst hg
        exact ⟨rfl, rfl, by simpa [mkClusterFlag] using hfl⟩
    · exact ih hg

/-- Every flag of the full cluster detector has the CLUSTER_BUY type and a
previously unrecorded pair. -/
theorem cluster_buys_spec {batch : List Section16Filing} {flags : List Flag} {g : Flag}
    (h : g ∈ _flag_cluster_buys batch flags) :
    g.flag_type = FlagType.CLUSTER_BUY ∧
      _already_flagged flags g.accession_no FlagType.CLUSTER_BUY = false := by
  unfold _flag_cluster_buys at h
  rw [List.mem_flatten] at h
  obtain ⟨l, hl, hgl⟩ := h
  rw [List.mem_map] at hl
  obtain ⟨p, -, rfl⟩ := hl
  exact ⟨(clusterLoop_spec hgl).2.1, (clusterLoop_spec hgl).2.2⟩

/-- Eligible purchase row of insider A for ticker X on day 0. -/
def cRow1 : Section16Filing :=
  { blankRow with
    accession_no := "0001", ticker := "X", insider_name := "A",
    transaction_date := some 0, transaction_code := some "P",
    shares := some 1, price := some 1 }

/-- Eligible purchase row of insider B for ticker X on day 1. -/
def cRow2 : Section16Filing :=
  { blankRow with
    accession_no := "0002", ticker := "X", insider_name := "B",
    transaction_date := some 1, transaction_code := some "P",
    shares := some 1, price := some 1 }

/-- Eligible purchase row of insider C for ticker X on day 2. -/
def cRow3 : Section16Filing :=
  { blankRow with
    accession_no := "0003", ticker := "X", insider_name := "C",
    transaction_date := some 2, transaction_code := some "P",
    shares := some 1, price := some 1 }

/-- Eligible purchase row of insider D for ticker X on day 8: inside the
7-day window anchored at day 1 but outside the window anchored at day 0. -/
def cRow4 : Section16Filing :=
  { blankRow with
    accession_no := "0004", ticker := "X", insider_name := "D",
    transaction_date := some 8, transaction_code := some "P",
    shares := some 1, price := some 1 }

/-- A batch with two overlapping qualifying cluster windows whose minimal
accessions differ. -/
def clusterBatch : List Section16Filing := [cRow1, cRow2, cRow3, cRow4]

/-- Store holding exactly the cluster batch as history, no prior flags. -/
def clusterDb : DB := ⟨clusterBatch, [], [], []⟩

/-- Claim C1 counterexample: the first run over the cluster batch succeeds
(no description TypeError: every batch row carries shares and price) and
persists its flags; running `detect_and_save_flags` a second time on the
same batch, with the store unchanged except for those flags, emits one
more flag — a CLUSTER_BUY keyed by accession 0002 for the window anchored
at day 1, because the first run only flagged the day-0 window (accession
0001) and the already-flagged check uses continue rather than break. -/
theorem second_run_cluster_counterexample :
    (detect_and_save_flags 100 clusterDb clusterBatch).2.2 = none ∧
      (detect_and_save_flags 100 ((detect_and_save_flags 100 clusterDb clusterBatch).1)
        clusterBatch).2.1 = 1 ∧
      detectAll 100 ((detect_and_save_flags 100 clusterDb clusterBatch).1) clusterBatch =
        .ok [⟨"X", "B, C, D", "0002", FlagType.CLUSTER_BUY, "HIGH"⟩] := by
  refine ⟨by decide, by decide, by decide⟩

/-- The eight detector outputs over the empty batch are all empty and none
of them raises. -/
theorem detectAll_nil (today : ℤ) (db : DB) : detectAll today db [] = .ok [] := rfl

/-- Claim C1 (amended): whenever a second run of flag detection over the
same batch, with the store unchanged except for the flags written by the
first run, completes without raising, it emits no flag of any type other
than CLUSTER_BUY. (When the first run raised, the store is rolled back
unchanged and the second run raises identically.) The cluster detector is
the exception: an already-flagged window is skipped with continue, so a
later overlapping window with a different minimal accession can emit a new
flag on the second run. -/
theorem second_run_only_cluster_buy (today : ℤ) (db : DB) (batch : List Section16Filing) :
    ∀ l, detectAll today ((detect_and_save_flags today db batch).1) batch = .ok l →
      ∀ g ∈ l, g.flag_type = FlagType.CLUSTER_BUY := by
  intro l hok g hg
  by_cases hb : batch = []
  · subst hb
    rw [show (detect_and_save_flags today db []).1 = db from rfl, detectAll_nil] at hok
    cases hok
    exact absurd hg (List.not_mem_nil g)
  · have hne : batch.isEmpty = false := by
      cases batch with
      | nil => exact absurd rfl hb
      | cons x xs => rfl
    cases hrun1 : detectAll today db batch with
    | error e =>
      have hd1 : (detect_and_save_flags today db batch).1 = db := by
        simp [detect_and_save_flags, hne, hrun1]
      rw [hd1, hrun1] at hok
      cases hok
    | ok run1 =>
      have hd1 : (detect_and_save_flags today db batch).1 =
          ⟨db.filings, db.prices, db.flags ++ run1, db.analytics⟩ := by
        simp [detect_and_save_flags, hne, hrun1]
      rw [hd1] at hok
      have hsub : ∀ x ∈ db.flags, x ∈ db.flags ++ run1 :=
        fun x hx => List.mem_append_left _ hx
      obtain ⟨ceo, lrg, fpu, rev, bul, dip, hceo, hlrg, hfpu, hrev, hbul, hdip, hl1⟩ :=
        detectAll_ok_inversion hrun1
      have hceo2 : _flag_ceo_cfo_purchases batch (db.flags ++ run1) = .ok [] :=
        exceptFilterMap_second_nil ceoRow_spec ceoRow_err ceoRow_flags_eq hsub hceo
          (fun x hx => List.mem_append_right _ (by
            rw [hl1]
            simp only [List.mem_append, or_assoc]
            exact Or.inl hx))
      have hlrg2 : _flag_large_purchases batch (db.flags ++ run1) = .ok [] :=
        exceptFilterMap_second_nil largeRow_spec largeRow_err largeRow_flags_eq hsub hlrg
          (fun x hx => List.mem_append_right _ (by
            rw [hl1]
            simp only [List.mem_append, or_assoc]
            exact Or.inr (Or.inl hx)))
      have hfpu2 : _flag_first_purchases batch db.filings (db.flags ++ run1) = .ok [] :=
        exceptFilterMap_second_nil (firstRow_spec db.filings) (firstRow_err db.filings)
          (firstRow_flags_eq db.filings) hsub hfpu
          (fun x hx => List.mem_append_right _ (by
            rw [hl1]
            simp only [List.mem_append, or_assoc]
            exact Or.inr (Or.inr (Or.inr (Or.inl hx)))))
      have hrev2 : _flag_reversal_buys today batch db.filings (db.flags ++ run1) =
          .ok [] :=
        exceptFilterMap_second_nil (reversalRow_spec today db.filings)
          (reversalRow_err today db.filings) (reversalRow_flags_eq today db.filings)
          hsub hrev
          (fun x hx => List.mem_append_right _ (by
            rw [hl1]
            simp only [List.mem_append, or_assoc]
            exact Or.inr (Or.inr (Or.inr (Or.inr (Or.inl hx))))))
      have hbul2 : _flag_bull_reversals batch db.filings (db.flags ++ run1) = .ok [] :=
        exceptFilterMap_second_nil (bullRow_spec db.filings) (bullRow_err db.filings)
          (bullRow_flags_eq db.filings) hsub hbul
          (fun x hx => List.mem_append_right _ (by
            rw [hl1]
            simp only [List.mem_append, or_assoc]
            exact Or.inr (Or.inr (Or.inr (Or.inr (Or.inr (Or.inl hx)))))))
      have hcnv2 : _flag_conviction_buys batch (db.flags ++ run1) = [] :=
        filterMap_second_nil convictionRow_spec convictionRow_flags_eq hsub
          (fun x hx => List.mem_append_right _ (by
            rw [hl1]
            simp only [List.mem_append, or_assoc]
            exact Or.inr (Or.inr (Or.inr (Or.inr (Or.inr (Or.inr (Or.inl hx))))))))
      have hdip2 : _flag_dip_buys batch db.prices (db.flags ++ run1) = .ok [] :=
        exceptFilterMap_second_nil (dipRow_spec db.prices) (dipRow_err db.prices)
          (dipRow_flags_eq db.prices) hsub hdip
          (fun x hx => List.mem_append_right _ (by
            rw [hl1]
            simp only [List.mem_append, or_assoc]
            exact Or.inr (Or.inr (Or.inr (Or.inr (Or.inr (Or.inr (Or.inr hx))))))))
      have h2 : detectAll today
          (⟨db.filings, db.prices, db.flags ++ run1, db.analytics⟩ : DB) batch =
          .ok (_flag_cluster_buys batch (db.flags ++ run1)) := by
        simp only [detectAll, hceo2, hlrg2, hfpu2, hrev2, hbul2, hcnv2, hdip2,
          List.nil_append, List.append_nil]
      rw [h2] at hok
      cases hok
      exact (cluster_buys_spec hg).1

/-- Claim C1 witness: the amended theorem applied to the concrete cluster
batch — the second run completes and its one flag is a CLUSTER_BUY. -/
theorem second_run_only_cluster_buy_witness :
    (⟨"X", "B, C, D", "0002", FlagType.CLUSTER_BUY, "HIGH"⟩ : Flag) ∈
        [(⟨"X", "B, C, D", "0002", FlagType.CLUSTER_BUY, "HIGH"⟩ : Flag)] ∧
      (⟨"X", "B, C, D", "0002", FlagType.CLUSTER_BUY, "HIGH"⟩ : Flag).flag_type =
        FlagType.CLUSTER_BUY :=
  ⟨by decide, second_run_only_cluster_buy 100 clusterDb clusterBatch
    [⟨"X", "B, C, D", "0002", FlagType.CLUSTER_BUY, "HIGH"⟩] (by decide)
    ⟨"X", "B, C, D", "0002", FlagType.CLUSTER_BUY, "HIGH"⟩ (by decide)⟩

/-- First transaction line of a CEO filing with accession A1. -/
def ceoRowA : Section16Filing :=
  { blankRow with
    accession_no := "A1", ticker := "X", insider_name := "Jane Roe",
    officer_title := some "Chief Executive Officer",
    transaction_date := some 0, transaction_code := some "P",
    shares := some 5, price := some 2 }

/-- Second transaction line of the same CEO filing (same accession A1). -/
def ceoRowB : Section16Filing :=
  { blankRow with
    accession_no := "A1", ticker := "X", insider_name := "Jane Roe",
    officer_title := some "Chief Executive Officer",
    transaction_date := some 1, transaction_code := some "P",
    shares := some 5, price := some 2 }

/-- Claim C4 counterexample: a batch with two transaction lines of one
filing (same accession A1), each an open-market CEO purchase carrying the
shares and price its description formats, makes the CEO/CFO detector
complete without raising and emit two flags with the identical
(accession, flag type) pair within a single run, because the dedup lookup
only sees flags already persisted in the store. -/
theorem duplicate_pair_counterexample :
    _flag_ceo_cfo_purchases [ceoRowA, ceoRowB] [] =
      .ok [⟨"X", "Jane Roe", "A1", FlagType.CEO_CFO_PURCHASE, "HIGH"⟩,
           ⟨"X", "Jane Roe", "A1", FlagType.CEO_CFO_PURCHASE, "HIGH"⟩] := by
  decide

/-- Claim C4 (amended): within a single run that completes without raising,
no detector emits a flag whose (accession identifier, flag type) pair is
already recorded in the store; but two batch rows sharing one accession
identifier that both satisfy a detector's trigger can each emit the same
pair in that run (see counterexample). -/
theorem detector_no_preexisting_pair (today : ℤ) (db : DB) (batch : List Section16Filing) :
    ∀ l, detectAll today db batch = .ok l →
      ∀ g ∈ l, _already_flagged db.flags g.accession_no g.flag_type = false := by
  intro l hok g hg
  obtain ⟨ceo, lrg, fpu, rev, bul, dip, hceo, hlrg, hfpu, hrev, hbul, hdip, hl⟩ :=
    detectAll_ok_inversion hok
  subst hl
  simp only [List.mem_append, or_assoc] at hg
  rcases hg with h | h | h | h | h | h | h | h
  · obtain ⟨f, -, hr⟩ := (mem_exceptFilterMap hceo g).mp h
    obtain ⟨ha, ht, hnf⟩ := ceoRow_spec _ _ _ hr
    rw [ha, ht]; exact hnf
  · obtain ⟨f, -, hr⟩ := (mem_exceptFilterMap hlrg g).mp h
    obtain ⟨ha, ht, hnf⟩ := largeRow_spec _ _ _ hr
    rw [ha, ht]; exact hnf
  · obtain ⟨ht, hnf⟩ := cluster_buys_spec h
    rw [ht]; exact hnf
  · obtain ⟨f, -, hr⟩ := (mem_exceptFilterMap hfpu g).mp h
    obtain ⟨ha, ht, hnf⟩ := firstRow_spec _ _ _ _ hr
    rw [ha, ht]; exact hnf
  · obtain ⟨f, -, hr⟩ := (mem_exceptFilterMap hrev g).mp h
    obtain ⟨ha, ht, hnf⟩ := reversalRow_spec _ _ _ _ _ hr
    rw [ha, ht]; exact hnf
  · obtain ⟨f, -, hr⟩ := (mem_exceptFilterMap hbul g).mp h
    obtain ⟨ha, ht, hnf⟩ := bullRow_spec _ _ _ _ hr
    rw [ha, ht]; exact hnf
  · obtain ⟨f, -, hr⟩ := List.mem_filterMap.mp h
    obtain ⟨ha, ht, hnf⟩ := convictionRow_spec _ _ _ hr
    rw [ha, ht]; exact hnf
  · obtain ⟨f, -, hr⟩ := (mem_exceptFilterMap hdip g).mp h
    obtain ⟨ha, ht, hnf⟩ := dipRow_spec _ _ _ _ hr
    rw [ha, ht]; exact hnf

/-- Claim C4 witness: the amended theorem applied to the duplicate-line CEO
batch over an empty flag store; the full pass completes and emits the
CEO/CFO pair twice and the FIRST_PURCHASE pair twice. -/
theorem detector_no_preexisting_pair_witness :
    _already_flagged (⟨[ceoRowA, ceoRowB], [], [], []⟩ : DB).flags
      (⟨"X", "Jane Roe", "A1", FlagType.CEO_CFO_PURCHASE, "HIGH"⟩ : Flag).accession_no
      (⟨"X", "Jane Roe", "A1", FlagType.CEO_CFO_PURCHASE, "HIGH"⟩ : Flag).flag_type =
        false :=
  detector_no_preexisting_pair 0 ⟨[ceoRowA, ceoRowB], [], [], []⟩ [ceoRowA, ceoRowB]
    [⟨"X", "Jane Roe", "A1", FlagType.CEO_CFO_PURCHASE, "HIGH"⟩,
     ⟨"X", "Jane Roe", "A1", FlagType.CEO_CFO_PURCHASE, "HIGH"⟩,
     ⟨"X", "Jane Roe", "A1", FlagType.FIRST_PURCHASE, "MEDIUM"⟩,
     ⟨"X", "Jane Roe", "A1", FlagType.FIRST_PURCHASE, "MEDIUM"⟩] (by decide)
    ⟨"X", "Jane Roe", "A1", FlagType.CEO_CFO_PURCHASE, "HIGH"⟩ (by decide)

/-- The conviction row body on a purchase with present shares and balance,
written as one conditional on the prior balance and the increase ratio. -/
theorem convictionRow_characterisation (flags : List Flag) (f : Section16Filing)
    (s rem : ℚ) (hcode : f.transaction_code = some "P") (hnd : f.is_derivative = false)
    (hs : f.shares = some s) (hrem : f.shares_remaining = some rem)
    (hnf : _already_flagged flags f.accession_no FlagType.CONVICTION_BUY = false) :
    convictionRow flags f =
      (if 0 < rem - s ∧ 1/10 ≤ s / (rem - s) then
        some { ticker := f.ticker, insider_name := f.insider_name,
               accession_no := f.accession_no, flag_type := FlagType.CONVICTION_BUY,
               severity := if 1/4 ≤ s / (rem - s) then "HIGH" else "MEDIUM" }
      else none) := by
  simp only [convictionRow, hcode, hnd, hs, hrem]
  rw [if_neg (by simp)]
  rcases eq_or_ne s 0 with h1 | h1
  · rw [if_pos (Or.inl h1), if_neg]
    rintro ⟨-, hle⟩
    rw [h1, zero_div] at hle
    norm_num at hle
  · rcases eq_or_ne rem 0 with h2 | h2
    · rw [if_pos (Or.inr h2), if_neg]
      rintro ⟨hpos, hle⟩
      rw [h2] at hpos hle
      have hdiv : s / (0 - s) = -1 := by
        rw [zero_sub, div_neg, div_self h1]
      rw [hdiv] at hle
      norm_num at hle
    · rw [if_neg (by tauto)]
      by_cases h3 : rem - s ≤ 0
      · rw [if_pos h3, if_neg]
        rintro ⟨hpos, -⟩
        linarith
      · rw [if_neg h3]
        push_neg at h3
        by_cases h4 : s / (rem - s) < 1/10
        · rw [if_pos h4, if_neg]
          rintro ⟨-, hle⟩
          linarith
        · have hc : 0 < rem - s ∧ 1/10 ≤ s / (rem - s) := ⟨h3, not_lt.mp h4⟩
          rw [if_neg h4, hnf, if_neg (show ¬(false = true) by simp), if_pos hc]

/-- Claim C6: for a non-derivative open-market purchase row with present
shares and remaining balance whose pair is not yet flagged, the
conviction-buy detector emits exactly one CONVICTION_BUY flag if and only
if the prior balance `rem - s` is strictly positive and the increase ratio
is at least 0.10, with severity HIGH when the ratio is at least 0.25 and
MEDIUM otherwise; it emits nothing otherwise. -/
theorem conviction_buy_correct (flags : List Flag) (f : Section16Filing)
    (s rem : ℚ) (hcode : f.transaction_code = some "P") (hnd : f.is_derivative = false)
    (hs : f.shares = some s) (hrem : f.shares_remaining = some rem)
    (hnf : _already_flagged flags f.accession_no FlagType.CONVICTION_BUY = false) :
    _flag_conviction_buys [f] flags =
      (if 0 < rem - s ∧ 1/10 ≤ s / (rem - s) then
        [{ ticker := f.ticker, insider_name := f.insider_name,
           accession_no := f.accession_no, flag_type := FlagType.CONVICTION_BUY,
           severity := if 1/4 ≤ s / (rem - s) then "HIGH" else "MEDIUM" }]
      else []) := by
  have hR := convictionRow_characterisation flags f s rem hcode hnd hs hrem hnf
  simp only [_flag_conviction_buys, List.filterMap_cons, List.filterMap_nil, hR]
  by_cases hc : 0 < rem - s ∧ 1/10 ≤ s / (rem - s)
  · rw [if_pos hc, if_pos hc]
  · rw [if_neg hc, if_neg hc]

/-- Purchase of 100 shares leaving a balance of 1100 (prior balance 1000,
ratio 10 percent). -/
def convRow : Section16Filing :=
  { blankRow with
    accession_no := "C1", ticker := "X", insider_name := "A",
    transaction_code := some "P", shares := some 100,
    shares_remaining := some 1100 }

/-- Claim C6 witness: the detector applied to the 100-of-1100 purchase
emits exactly one MEDIUM conviction flag. -/
theorem conviction_buy_correct_witness :
    convRow.transaction_code = some "P" ∧ convRow.is_derivative = false ∧
      convRow.shares = some 100 ∧ convRow.shares_remaining = some 1100 ∧
      _flag_conviction_buys [convRow] [] =
        [{ ticker := "X", insider_name := "A", accession_no := "C1",
           flag_type := FlagType.CONVICTION_BUY, severity := "MEDIUM" }] := by
  refine ⟨rfl, rfl, rfl, rfl, ?_⟩
  have h := conviction_buy_correct [] convRow 100 1100 rfl rfl rfl rfl (by decide)
  have hc : (0 : ℚ) < 1100 - 100 ∧ (1 : ℚ)/10 ≤ 100 / (1100 - 100) := by norm_num
  have hsev : ¬((1 : ℚ)/4 ≤ 100 / (1100 - 100)) := by norm_num
  rw [h, if_pos hc, if_neg hsev]
  rfl

/-- A prior derivative purchase of insider A in ticker X (accession F0). -/
def fpPrior : Section16Filing :=
  { blankRow with
    accession_no := "F0", ticker := "X", insider_name := "A",
    transaction_code := some "P", is_derivative := true,
    transaction_date := some 0 }

/-- A new non-derivative open-market purchase of the same insider
(accession F1, dated). -/
def fpNew : Section16Filing :=
  { blankRow with
    accession_no := "F1", ticker := "X", insider_name := "A",
    transaction_code := some "P", transaction_date := some 10 }

/-- Claim C7 counterexample: the new row is a dated non-derivative
open-market purchase and the only prior purchase row in history is
derivative, so by the claim a FIRST_PURCHASE flag must be emitted; the
detector emits none, because its prior-purchase query has no
`is_derivative` filter and therefore counts the derivative row. -/
theorem first_purchase_counterexample :
    fpNew.transaction_code = some "P" ∧ fpNew.is_derivative = false ∧
      fpNew.transaction_date = some 10 ∧ fpPrior.is_derivative = true ∧
      _flag_first_purchases [fpNew] [fpPrior, fpNew] [] = .ok [] := by
  decide

/-- What the first-purchase row body emits, as a proposition: the row must
also carry the shares and price its description formats, or the body
raises instead of emitting. -/
theorem firstRow_some_iff (hist : List Section16Filing) (flags : List Flag)
    (f : Section16Filing) (g : Flag) :
    firstRow hist flags f = .ok (some g) ↔
      f.transaction_code = some "P" ∧ f.is_derivative = false ∧
        _already_flagged flags f.accession_no FlagType.FIRST_PURCHASE = false ∧
        (¬ ∃ r ∈ hist, r.ticker = f.ticker ∧ r.insider_name = f.insider_name ∧
          r.transaction_code = some "P" ∧ r.accession_no ≠ f.accession_no) ∧
        (f.shares.isSome ∧ f.price.isSome) ∧
        g = { ticker := f.ticker, insider_name := f.insider_name,
              accession_no := f.accession_no, flag_type := FlagType.FIRST_PURCHASE,
              severity := "MEDIUM" } := by
  unfold firstRow
  constructor
  · intro h
    split at h
    · exact absurd h (by simp)
    rename_i hg1
    split at h
    · exact absurd h (by simp)
    rename_i hg2
    split at h
    · exact absurd h (by simp)
    rename_i hg3
    split at h
    · rename_i hpres
      cases h
      push_neg at hg1
      refine ⟨hg1.1, by simpa using hg1.2, by simpa using hg2, ?_, hpres, rfl⟩
      intro hex
      apply hg3
      simp only [List.any_eq_true, Bool.and_eq_true, beq_iff_eq, bne_iff_ne]
      obtain ⟨r, hr, h1, h2, h3, h4⟩ := hex
      exact ⟨r, hr, ⟨⟨h1, h2⟩, by rw [h3]⟩, h4⟩
    · exact absurd h (by simp)
  · rintro ⟨hcode, hnd, hnf, hnp, hpres, rfl⟩
    rw [if_neg (by simp [hcode, hnd]), hnf, if_neg (by simp), if_neg, if_pos hpres]
    intro hany
    apply hnp
    simp only [List.any_eq_true, Bool.and_eq_true, beq_iff_eq, bne_iff_ne] at hany
    obtain ⟨r, hr, ⟨⟨h1, h2⟩, h3⟩, h4⟩ := hany
    exact ⟨r, hr, h1, h2, by simpa using h3, h4⟩

/-- When the first-purchase row body raises the description TypeError, as a
proposition: all emission conditions hold but shares or price is missing. -/
theorem firstRow_error_iff (hist : List Section16Filing) (flags : List Flag)
    (f : Section16Filing) :
    firstRow hist flags f = .error () ↔
      f.transaction_code = some "P" ∧ f.is_derivative = false ∧
        _already_flagged flags f.accession_no FlagType.FIRST_PURCHASE = false ∧
        (¬ ∃ r ∈ hist, r.ticker = f.ticker ∧ r.insider_name = f.insider_name ∧
          r.transaction_code = some "P" ∧ r.accession_no ≠ f.accession_no) ∧
        ¬ (f.shares.isSome ∧ f.price.isSome) := by
  unfold firstRow
  constructor
  · intro h
    split at h
    · exact absurd h (by simp)
    rename_i hg1
    split at h
    · exact absurd h (by simp)
    rename_i hg2
    split at h
    · exact absurd h (by simp)
    rename_i hg3
    split at h
    · exact absurd h (by simp)
    rename_i hpres
    push_neg at hg1
    refine ⟨hg1.1, by simpa using hg1.2, by simpa using hg2, ?_, hpres⟩
    intro hex
    apply hg3
    simp only [List.any_eq_true, Bool.and_eq_true, beq_iff_eq, bne_iff_ne]
    obtain ⟨r, hr, h1, h2, h3, h4⟩ := hex
    exact ⟨r, hr, ⟨⟨h1, h2⟩, by rw [h3]⟩, h4⟩
  · rintro ⟨hcode, hnd, hnf, hnp, hpres⟩
    rw [if_neg (by simp [hcode, hnd]), hnf, if_neg (by simp), if_neg, if_neg hpres]
    intro hany
    apply hnp
    simp only [List.any_eq_true, Bool.and_eq_true, beq_iff_eq, bne_iff_ne] at hany
    obtain ⟨r, hr, ⟨⟨h1, h2⟩, h3⟩, h4⟩ := hany
    exact ⟨r, hr, h1, h2, by simpa using h3, h4⟩

/-- Claim C7 (amended): on a run of the first-purchase detector that
completes, a MEDIUM FIRST_PURCHASE flag is emitted for a new row if and
only if the row is a non-derivative open-market purchase (a transaction
date is not required) carrying the shares and price its description
formats, its pair is not yet flagged, and no purchase row — derivative or
not — with code P for that (ticker, insider) under a different accession
identifier exists in the full history; and the detector raises the
description TypeError exactly when some row meets all those emission
conditions but is missing its shares or price. -/
theorem first_purchase_amended (new_filings hist : List Section16Filing)
    (flags : List Flag) :
    (∀ out, _flag_first_purchases new_filings hist flags = .ok out →
      ∀ g, g ∈ out ↔
        ∃ f ∈ new_filings, f.transaction_code = some "P" ∧ f.is_derivative = false ∧
          _already_flagged flags f.accession_no FlagType.FIRST_PURCHASE = false ∧
          (¬ ∃ r ∈ hist, r.ticker = f.ticker ∧ r.insider_name = f.insider_name ∧
            r.transaction_code = some "P" ∧ r.accession_no ≠ f.accession_no) ∧
          (f.shares.isSome ∧ f.price.isSome) ∧
          g = { ticker := f.ticker, insider_name := f.insider_name,
                accession_no := f.accession_no, flag_type := FlagType.FIRST_PURCHASE,
                severity := "MEDIUM" }) ∧
    (_flag_first_purchases new_filings hist flags = .error () ↔
      ∃ f ∈ new_filings, f.transaction_code = some "P" ∧ f.is_derivative = false ∧
        _already_flagged flags f.accession_no FlagType.FIRST_PURCHASE = false ∧
        (¬ ∃ r ∈ hist, r.ticker = f.ticker ∧ r.insider_name = f.insider_name ∧
          r.transaction_code = some "P" ∧ r.accession_no ≠ f.accession_no) ∧
        ¬ (f.shares.isSome ∧ f.price.isSome)) := by
  constructor
  · intro out hout g
    rw [mem_exceptFilterMap hout g]
    constructor
    · rintro ⟨f, hf, hr⟩
      exact ⟨f, hf, (firstRow_some_iff hist flags f g).mp hr⟩
    · rintro ⟨f, hf, hrest⟩
      exact ⟨f, hf, (firstRow_some_iff hist flags f g).mpr hrest⟩
  · unfold _flag_first_purchases
    rw [exceptFilterMap_error_iff]
    constructor
    · rintro ⟨f, hf, hr⟩
      exact ⟨f, hf, (firstRow_error_iff hist flags f).mp hr⟩
    · rintro ⟨f, hf, hrest⟩
      exact ⟨f, hf, (firstRow_error_iff hist flags f).mpr hrest⟩

/-- A lone non-derivative purchase with present shares and price, used to
instantiate the amended first-purchase theorem. -/
def fpSolo : Section16Filing :=
  { blankRow with
    accession_no := "W1", ticker := "X", insider_name := "A",
    transaction_code := some "P", shares := some 1, price := some 1 }

/-- Claim C7 witness: the amended theorem applied to a one-row batch with
empty history and flag store — the emitted flag is exactly the MEDIUM
FIRST_PURCHASE flag of the row. -/
theorem first_purchase_amended_witness :
    (⟨"X", "A", "W1", FlagType.FIRST_PURCHASE, "MEDIUM"⟩ : Flag) ∈
      ([⟨"X", "A", "W1", FlagType.FIRST_PURCHASE, "MEDIUM"⟩] : List Flag) :=
  ((first_purchase_amended [fpSolo] [] []).1
      [⟨"X", "A", "W1", FlagType.FIRST_PURCHASE, "MEDIUM"⟩] (by decide)
      ⟨"X", "A", "W1", FlagType.FIRST_PURCHASE, "MEDIUM"⟩).mpr (by decide)

/-- The SQL comparison `transaction_date >= cutoff` on a nullable date, as
a proposition. -/
theorem date_ge_match_iff (o : Option ℤ) (c : ℤ) :
    ((match o with
      | some d => decide (c ≤ d)
      | none => false) = true) ↔ ∃ d, o = some d ∧ c ≤ d := by
  cases o <;> simp

/-- The recent-activity query of the legacy reversal detector contains a
row with code `c` (for c either P or S) exactly when the history holds a
matching dated row under a different accession. -/
theorem recent_any_code_iff (today : ℤ) (hist : List Section16Filing)
    (f : Section16Filing) (c : String) (hc : c = "P" ∨ c = "S") :
    ((hist.filter (fun r =>
        r.ticker == f.ticker && r.insider_name == f.insider_name &&
        (match r.transaction_date with
         | some d => decide (today - 90 ≤ d)
         | none => false) &&
        (r.transaction_code == some "P" || r.transaction_code == some "S") &&
        r.accession_no != f.accession_no)).any
      (fun r => r.transaction_code == some c) = true) ↔
    ∃ r ∈ hist, r.ticker = f.ticker ∧ r.insider_name = f.insider_name ∧
      (∃ d, r.transaction_date = some d ∧ today - 90 ≤ d) ∧
      r.transaction_code = some c ∧ r.accession_no ≠ f.accession_no := by
  simp only [List.any_eq_true, List.mem_filter, Bool.and_eq_true, Bool.or_eq_true,
    beq_iff_eq, bne_iff_ne, date_ge_match_iff]
  constructor
  · rintro ⟨r, ⟨hr, ⟨⟨⟨⟨h1, h2⟩, h3⟩, -⟩, h5⟩⟩, hcr⟩
    exact ⟨r, hr, h1, h2, h3, hcr, h5⟩
  · rintro ⟨r, hr, h1, h2, h3, hcr, h5⟩
    refine ⟨r, ⟨hr, ⟨⟨⟨⟨h1, h2⟩, h3⟩, ?_⟩, h5⟩⟩, hcr⟩
    rcases hc with rfl | rfl
    · exact Or.inl hcr
    · exact Or.inr hcr

/-- What the legacy reversal row body emits, as a proposition: a MEDIUM
REVERSAL_BUY for a non-derivative purchase carrying the shares and price
its description formats, whose insider had at least one sell and no buy
among the other-accession P/S rows dated within the 90 days before the run
date (a triggering row missing shares or price raises instead). -/
theorem reversalRow_some_iff (today : ℤ) (hist : List Section16Filing)
    (flags : List Flag) (f : Section16Filing) (g : Flag) :
    reversalRow today hist flags f = .ok (some g) ↔
      f.transaction_code = some "P" ∧ f.is_derivative = false ∧
        _already_flagged flags f.accession_no FlagType.REVERSAL_BUY = false ∧
        (∃ r ∈ hist, r.ticker = f.ticker ∧ r.insider_name = f.insider_name ∧
          (∃ d, r.transaction_date = some d ∧ today - 90 ≤ d) ∧
          r.transaction_code = some "S" ∧ r.accession_no ≠ f.accession_no) ∧
        (¬ ∃ r ∈ hist, r.ticker = f.ticker ∧ r.insider_name = f.insider_name ∧
          (∃ d, r.transaction_date = some d ∧ today - 90 ≤ d) ∧
          r.transaction_code = some "P" ∧ r.accession_no ≠ f.accession_no) ∧
        (f.shares.isSome ∧ f.price.isSome) ∧
        g = { ticker := f.ticker, insider_name := f.insider_name,
              accession_no := f.accession_no, flag_type := FlagType.REVERSAL_BUY,
              severity := "MEDIUM" } := by
  simp only [reversalRow]
  constructor
  · intro h
    split at h
    · exact absurd h (by simp)
    rename_i hg1
    split at h
    · exact absurd h (by simp)
    rename_i hg2
    split at h
    · rename_i hcond
      split at h
      · rename_i hpres
        cases h
        rw [Bool.and_eq_true, Bool.not_eq_true'] at hcond
        push_neg at hg1
        refine ⟨hg1.1, by simpa using hg1.2, by simpa using hg2,
          (recent_any_code_iff today hist f "S" (Or.inr rfl)).mp hcond.1, ?_, hpres, rfl⟩
        intro hex
        have hb := (recent_any_code_iff today hist f "P" (Or.inl rfl)).mpr hex
        rw [hcond.2] at hb
        exact absurd hb (by simp)
      · exact absurd h (by simp)
    · exact absurd h (by simp)
  · rintro ⟨hcode, hnd, hnf, hsell, hnobuy, hpres, rfl⟩
    rw [if_neg (by simp [hcode, hnd]), hnf, if_neg (show ¬(false = true) by simp),
      if_pos hpres]
    split
    · rfl
    · rename_i hcond
      exfalso
      apply hcond
      rw [Bool.and_eq_true, Bool.not_eq_true']
      have hfalse : ∀ b : Bool, b ≠ true → b = false := by
        intro b hb
        cases b
        · rfl
        · exact absurd rfl hb
      refine ⟨(recent_any_code_iff today hist f "S" (Or.inr rfl)).mpr hsell, ?_⟩
      exact hfalse _
        (fun hb => hnobuy ((recent_any_code_iff today hist f "P" (Or.inl rfl)).mp hb))

/-- A 90-day-recent sell row of insider A under accession R0. -/
def rvSell : Section16Filing :=
  { blankRow with
    accession_no := "R0", ticker := "X", insider_name := "A",
    transaction_code := some "S", transaction_date := some 95 }

/-- A new open-market purchase of the same insider under accession R1,
carrying the shares and price the flag descriptions format. -/
def rvBuy : Section16Filing :=
  { blankRow with
    accession_no := "R1", ticker := "X", insider_name := "A",
    transaction_code := some "P", transaction_date := some 100,
    shares := some 5, price := some 2 }

/-- Claim C9 counterexample: the orchestrator still runs the legacy
reversal detector, so a purchase following 90 days of exclusive selling
persists one REVERSAL_BUY flag. -/
theorem reversal_buy_emitted_counterexample :
    (((detect_and_save_flags 100 (⟨[rvSell, rvBuy], [], [], []⟩ : DB) [rvBuy]).1.flags.filter
        (fun g => g.flag_type == FlagType.REVERSAL_BUY)).length) = 1 := by
  decide

/-- Claim C9 (amended): `detect_and_save_flags` does emit flags of the
deprecated legacy type REVERSAL_BUY: the output of a run that completes
without raising contains a REVERSAL_BUY flag exactly when some batch row
is a non-derivative open-market purchase carrying its shares and price,
not yet flagged for that pair, whose insider has at least one sell and no
buy among the other-accession P/S history rows dated within the 90 days
before the run date. -/
theorem reversal_buy_amended (today : ℤ) (db : DB) (batch : List Section16Filing)
    (l : List Flag) (hok : detectAll today db batch = .ok l) (g : Flag) :
    (g ∈ l ∧ g.flag_type = FlagType.REVERSAL_BUY) ↔
      ∃ f ∈ batch, f.transaction_code = some "P" ∧ f.is_derivative = false ∧
        _already_flagged db.flags f.accession_no FlagType.REVERSAL_BUY = false ∧
        (∃ r ∈ db.filings, r.ticker = f.ticker ∧ r.insider_name = f.insider_name ∧
          (∃ d, r.transaction_date = some d ∧ today - 90 ≤ d) ∧
          r.transaction_code = some "S" ∧ r.accession_no ≠ f.accession_no) ∧
        (¬ ∃ r ∈ db.filings, r.ticker = f.ticker ∧ r.insider_name = f.insider_name ∧
          (∃ d, r.transaction_date = some d ∧ today - 90 ≤ d) ∧
          r.transaction_code = some "P" ∧ r.accession_no ≠ f.accession_no) ∧
        (f.shares.isSome ∧ f.price.isSome) ∧
        g = { ticker := f.ticker, insider_name := f.insider_name,
              accession_no := f.accession_no, flag_type := FlagType.REVERSAL_BUY,
              severity := "MEDIUM" } := by
  obtain ⟨ceo, lrg, fpu, rev, bul, dip, hceo, hlrg, hfpu, hrev, hbul, hdip, hl⟩ :=
    detectAll_ok_inversion hok
  subst hl
  constructor
  · rintro ⟨hg, htype⟩
    simp only [List.mem_append, or_assoc] at hg
    rcases hg with h | h | h | h | h | h | h | h
    · obtain ⟨f, -, hr⟩ := (mem_exceptFilterMap hceo g).mp h
      rw [(ceoRow_spec _ _ _ hr).2.1] at htype
      exact absurd htype (by decide)
    · obtain ⟨f, -, hr⟩ := (mem_exceptFilterMap hlrg g).mp h
      rw [(largeRow_spec _ _ _ hr).2.1] at htype
      exact absurd htype (by decide)
    · rw [(cluster_buys_spec h).1] at htype
      exact absurd htype (by decide)
    · obtain ⟨f, -, hr⟩ := (mem_exceptFilterMap hfpu g).mp h
      rw [(firstRow_spec _ _ _ _ hr).2.1] at htype
      exact absurd htype (by decide)
    · obtain ⟨f, hf, hr⟩ := (mem_exceptFilterMap hrev g).mp h
      exact ⟨f, hf, (reversalRow_some_iff today db.filings db.flags f g).mp hr⟩
    · obtain ⟨f, -, hr⟩ := (mem_exceptFilterMap hbul g).mp h
      rw [(bullRow_spec _ _ _ _ hr).2.1] at htype
      exact absurd htype (by decide)
    · obtain ⟨f, -, hr⟩ := List.mem_filterMap.mp h
      rw [(convictionRow_spec _ _ _ hr).2.1] at htype
      exact absurd htype (by decide)
    · obtain ⟨f, -, hr⟩ := (mem_exceptFilterMap hdip g).mp h
      rw [(dipRow_spec _ _ _ _ hr).2.1] at htype
      exact absurd htype (by decide)
  · rintro ⟨f, hf, hrest⟩
    have hmem : g ∈ rev :=
      (mem_exceptFilterMap hrev g).mpr
        ⟨f, hf, (reversalRow_some_iff today db.filings db.flags f g).mpr hrest⟩
    constructor
    · simp only [List.mem_append, or_assoc]
      exact Or.inr (Or.inr (Or.inr (Or.inr (Or.inl hmem))))
    · rw [hrest.2.2.2.2.2.2]

/-- Claim C9 witness: the amended theorem applied to the reversal batch —
the completed run emits a FIRST_PURCHASE and a REVERSAL_BUY flag, and the
REVERSAL_BUY one satisfies both sides of the equivalence. -/
theorem reversal_buy_amended_witness :
    (⟨"X", "A", "R1", FlagType.REVERSAL_BUY, "MEDIUM"⟩ : Flag) ∈
        ([⟨"X", "A", "R1", FlagType.FIRST_PURCHASE, "MEDIUM"⟩,
          ⟨"X", "A", "R1", FlagType.REVERSAL_BUY, "MEDIUM"⟩] : List Flag) ∧
      (⟨"X", "A", "R1", FlagType.REVERSAL_BUY, "MEDIUM"⟩ : Flag).flag_type =
        FlagType.REVERSAL_BUY :=
  (reversal_buy_amended 100 ⟨[rvSell, rvBuy], [], [], []⟩ [rvBuy]
      [⟨"X", "A", "R1", FlagType.FIRST_PURCHASE, "MEDIUM"⟩,
       ⟨"X", "A", "R1", FlagType.REVERSAL_BUY, "MEDIUM"⟩] (by decide)
      ⟨"X", "A", "R1", FlagType.REVERSAL_BUY, "MEDIUM"⟩).mpr (by decide)

/-- The 7-day windows the cluster loop inspects, one per anchor of the
sorted list, each paired with the rows falling inside it. -/
def anchorWindows : List Section16Filing → List (Section16Filing × List Section16Filing)
  | [] => []
  | a :: rest =>
    (a, (a :: rest).filter (fun b => dateVal b ≤ dateVal a + 7)) :: anchorWindows rest

/-- The qualifying windows: those with at least three distinct insiders,
in anchor order. -/
def qualifyingWindows (l : List Section16Filing) :
    List (Section16Filing × List Section16Filing) :=
  (anchorWindows l).filter (fun w => 3 ≤ distinctInsiders w.2)

/-- In a store without CLUSTER_BUY flags every cluster dedup lookup is
negative. -/
theorem no_cluster_flag_false {flags : List Flag}
    (hnf : ∀ g ∈ flags, g.flag_type ≠ FlagType.CLUSTER_BUY) (a : String) :
    _already_flagged flags a FlagType.CLUSTER_BUY = false := by
  cases hb : _already_flagged flags a FlagType.CLUSTER_BUY
  · rfl
  · exfalso
    simp only [_already_flagged, List.any_eq_true, Bool.and_eq_true, beq_iff_eq] at hb
    obtain ⟨g, hg, -, ht⟩ := hb
    exact hnf g hg ht

/-- Over a store without CLUSTER_BUY flags the anchor loop emits exactly
the flag of the first qualifying window, or nothing. -/
theorem clusterLoop_eq_firstQualifying {flags : List Flag} {t : String}
    (hnf : ∀ g ∈ flags, g.flag_type ≠ FlagType.CLUSTER_BUY) :
    ∀ l : List Section16Filing,
      clusterLoop flags t l =
        (match (qualifyingWindows l).head? with
         | none => []
         | some w => [mkClusterFlag t w.2]) := by
  intro l
  induction l with
  | nil => rfl
  | cons a rest ih =>
    by_cases hq : 3 ≤ distinctInsiders
        ((a :: rest).filter (fun b => dateVal b ≤ dateVal a + 7))
    · have hqw : (qualifyingWindows (a :: rest)).head? =
          some (a, (a :: rest).filter (fun b => dateVal b ≤ dateVal a + 7)) := by
        simp only [qualifyingWindows, anchorWindows]
        rw [List.filter_cons, if_pos (decide_eq_true hq)]
        rfl
      simp only [clusterLoop]
      rw [if_pos hq, no_cluster_flag_false hnf,
        if_neg (show ¬(false = true) by simp), hqw]
    · have hqw : qualifyingWindows (a :: rest) = qualifyingWindows rest := by
        simp only [qualifyingWindows, anchorWindows]
        rw [List.filter_cons, if_neg (fun hd => hq (of_decide_eq_true hd))]
      simp only [clusterLoop]
      rw [if_neg hq, ih, hqw]

/-- Filtering distributes over flatten. -/
theorem filter_flatten {α} (p : α → Bool) :
    ∀ L : List (List α), (L.flatten).filter p = (L.map (fun l => l.filter p)).flatten := by
  intro L
  induction L with
  | nil => rfl
  | cons x xs ih => simp [List.filter_append, ih]

/-- Membership in the first-occurrence key list. -/
theorem mem_firstOccurrencesAux :
    ∀ (l seen : List String) (k : String),
      k ∈ firstOccurrencesAux seen l ↔ k ∈ l ∧ k ∉ seen := by
  intro l
  induction l with
  | nil => intro seen k; simp [firstOccurrencesAux]
  | cons t ts ih =>
    intro seen k
    simp only [firstOccurrencesAux]
    by_cases hs : seen.contains t
    · rw [if_pos hs, ih]
      simp only [List.mem_cons]
      constructor
      · rintro ⟨hk, hns⟩
        exact ⟨Or.inr hk, hns⟩
      · rintro ⟨hk | hk, hns⟩
        · subst hk
          exact absurd (List.elem_iff.mp hs) hns
        · exact ⟨hk, hns⟩
    · rw [if_neg hs]
      have hts : t ∉ seen := fun hmem => hs (List.elem_iff.mpr hmem)
      by_cases hkt : k = t
      · subst hkt
        constructor
        · intro _
          exact ⟨List.mem_cons_self k ts, hts⟩
        · intro _
          exact List.mem_cons_self k _
      · simp only [List.mem_cons]
        constructor
        · rintro (rfl | hk)
          · exact absurd rfl hkt
          · obtain ⟨h1, h2⟩ := (ih (t :: seen) k).mp hk
            exact ⟨Or.inr h1, fun hmem => h2 (List.mem_cons_of_mem t hmem)⟩
        · rintro ⟨rfl | hk, hns⟩
          · exact absurd rfl hkt
          · exact Or.inr ((ih (t :: seen) k).mpr
              ⟨hk, fun hmem => (List.mem_cons.mp hmem).elim (fun h => hkt h) hns⟩)

/-- The first-occurrence key list has no duplicate keys. -/
theorem nodup_firstOccurrencesAux :
    ∀ (l seen : List String), (firstOccurrencesAux seen l).Nodup := by
  intro l
  induction l with
  | nil => intro seen; simp [firstOccurrencesAux]
  | cons t ts ih =>
    intro seen
    simp only [firstOccurrencesAux]
    by_cases hs : seen.contains t
    · rw [if_pos hs]; exact ih seen
    · rw [if_neg hs]
      refine List.nodup_cons.mpr ⟨?_, ih (t :: seen)⟩
      intro hmem
      exact ((mem_firstOccurrencesAux ts (t :: seen) t).mp hmem).2 (List.mem_cons_self t seen)

/-- Flattening per-key blocks of which at most the block of key `t` is
non-empty keeps exactly that block. -/
theorem flatten_map_single {β} (F : String → List β) (p : β → Bool) (t : String)
    (hother : ∀ k, k ≠ t → (F k).filter p = [])
    (hself : (F t).filter p = F t) :
    ∀ ks : List String, ks.Nodup →
      ((ks.map (fun k => (F k).filter p)).flatten) = if t ∈ ks then F t else [] := by
  intro ks hnd
  induction ks with
  | nil => simp
  | cons k ks ih =>
    simp only [List.map_cons, List.flatten_cons]
    have hnd2 := (List.nodup_cons.mp hnd).2
    by_cases hk : k = t
    · subst hk
      rw [hself, ih hnd2, if_neg (List.nodup_cons.mp hnd).1,
        if_pos (List.mem_cons_self k ks), List.append_nil]
    · rw [hother k hk, List.nil_append, ih hnd2]
      by_cases ht : t ∈ ks
      · rw [if_pos ht, if_pos (List.mem_cons_of_mem _ ht)]
      · rw [if_neg ht, if_neg (fun hmem =>
          (List.mem_cons.mp hmem).elim (fun h => hk h.symm) ht)]

/-- The flags of one ticker in the cluster detector output are exactly
what the anchor loop produces over that ticker's chronologically sorted
eligible buys. -/
theorem cluster_filter_eq (batch : List Section16Filing) (flags : List Flag) (t : String) :
    (_flag_cluster_buys batch flags).filter (fun g => g.ticker == t) =
      clusterLoop flags t (sortBy txnDateLt
        ((clusterEligible batch).filter (fun f => f.ticker == t))) := by
  unfold _flag_cluster_buys groupBy
  rw [filter_flatten, List.map_map, List.map_map]
  have hres := flatten_map_single
    (fun k => clusterLoop flags k (sortBy txnDateLt
      ((clusterEligible batch).filter (fun f => f.ticker == k))))
    (fun g => g.ticker == t) t
    (by
      intro k hk
      rw [List.filter_eq_nil_iff]
      intro g hg
      have := (clusterLoop_spec hg).1
      simp [this, hk])
    (by
      rw [List.filter_eq_self]
      intro g hg
      simp [(clusterLoop_spec hg).1])
    (firstOccurrences ((clusterEligible batch).map (fun f => f.ticker)))
    (nodup_firstOccurrencesAux _ [])
  show ((firstOccurrences ((clusterEligible batch).map (fun f => f.ticker))).map
      (fun k => (clusterLoop flags k (sortBy txnDateLt
        ((clusterEligible batch).filter (fun f => f.ticker == k)))).filter
          (fun g => g.ticker == t))).flatten = _
  rw [hres]
  by_cases ht : t ∈ firstOccurrences ((clusterEligible batch).map (fun f => f.ticker))
  · rw [if_pos ht]
  · rw [if_neg ht]
    have hfe : (clusterEligible batch).filter (fun f => f.ticker == t) = [] := by
      rw [List.filter_eq_nil_iff]
      intro f hf hbeq
      apply ht
      rw [firstOccurrences, mem_firstOccurrencesAux]
      refine ⟨?_, List.not_mem_nil t⟩
      rw [List.mem_map]
      exact ⟨f, hf, by simpa using hbeq⟩
    rw [hfe]
    rfl

/-- Decomposition of anchor-window membership into a list split. -/
theorem mem_anchorWindows :
    ∀ (l : List Section16Filing) (w : Section16Filing × List Section16Filing),
      w ∈ anchorWindows l ↔
        ∃ pre a rest, l = pre ++ a :: rest ∧
          w = (a, (a :: rest).filter (fun b => dateVal b ≤ dateVal a + 7)) := by
  intro l
  induction l with
  | nil =>
    intro w
    simp only [anchorWindows, List.not_mem_nil, false_iff]
    rintro ⟨pre, a, rest, hsplit, -⟩
    exact absurd hsplit (by simp)
  | cons x xs ih =>
    intro w
    simp only [anchorWindows, List.mem_cons, ih]
    constructor
    · rintro (rfl | ⟨pre, a, rest, rfl, rfl⟩)
      · exact ⟨[], x, xs, rfl, rfl⟩
      · exact ⟨x :: pre, a, rest, rfl, rfl⟩
    · rintro ⟨pre, a, rest, hsplit, rfl⟩
      cases pre with
      | nil =>
        simp only [List.nil_append] at hsplit
        cases hsplit
        exact Or.inl rfl
      | cons y ys =>
        simp only [List.cons_append, List.cons.injEq] at hsplit
        obtain ⟨rfl, hxs⟩ := hsplit
        exact Or.inr ⟨ys, a, rest, hxs, rfl⟩

/-- No window qualifies exactly when no suffix split of the sorted list
opens a window with three distinct insiders. -/
theorem qualifyingWindows_nil_iff (l : List Section16Filing) :
    qualifyingWindows l = [] ↔
      ¬ ∃ pre a rest, l = pre ++ a :: rest ∧
        3 ≤ distinctInsiders ((a :: rest).filter (fun b => dateVal b ≤ dateVal a + 7)) := by
  rw [qualifyingWindows, List.filter_eq_nil_iff]
  constructor
  · rintro h ⟨pre, a, rest, hsplit, hq⟩
    exact h _ ((mem_anchorWindows l _).mpr ⟨pre, a, rest, hsplit, rfl⟩) (by simpa using hq)
  · intro h w hw hq
    obtain ⟨pre, a, rest, hsplit, rfl⟩ := (mem_anchorWindows l w).mp hw
    exact h ⟨pre, a, rest, hsplit, by simpa using hq⟩

/-- Claim C3: over a store with no CLUSTER_BUY flags, the cluster detector
emits for each ticker exactly one HIGH CLUSTER_BUY flag keyed by the
lexicographically smallest accession identifier of the first qualifying
7-day window of that ticker's chronologically sorted eligible buys — and
no flag at all when no window anchored at a sorted eligible buy contains
purchases by three or more distinct insiders. -/
theorem cluster_buy_correct (batch : List Section16Filing) (flags : List Flag)
    (t : String) (hnf : ∀ g ∈ flags, g.flag_type ≠ FlagType.CLUSTER_BUY) :
    ((_flag_cluster_buys batch flags).filter (fun g => g.ticker == t) =
      (match (qualifyingWindows (sortBy txnDateLt
          ((clusterEligible batch).filter (fun f => f.ticker == t)))).head? with
       | none => []
       | some w => [{ ticker := t, insider_name := clusterNames w.2,
                      accession_no := minAccession w.2,
                      flag_type := FlagType.CLUSTER_BUY, severity := "HIGH" }]))
    ∧ (qualifyingWindows (sortBy txnDateLt
          ((clusterEligible batch).filter (fun f => f.ticker == t))) = [] ↔
        ¬ ∃ pre a rest, sortBy txnDateLt
            ((clusterEligible batch).filter (fun f => f.ticker == t)) =
              pre ++ a :: rest ∧
          3 ≤ distinctInsiders
            ((a :: rest).filter (fun b => dateVal b ≤ dateVal a + 7))) := by
  constructor
  · rw [cluster_filter_eq, clusterLoop_eq_firstQualifying hnf]
    rfl
  · exact qualifyingWindows_nil_iff _

/-- Claim C3 witness: three insiders buying ticker X on days 0, 1, 2 over
an empty flag store yield the single HIGH flag keyed by accession 0001. -/
theorem cluster_buy_correct_witness :
    (∀ g ∈ ([] : List Flag), g.flag_type ≠ FlagType.CLUSTER_BUY) ∧
      ((_flag_cluster_buys [cRow1, cRow2, cRow3] []).filter (fun g => g.ticker == "X") =
        (match (qualifyingWindows (sortBy txnDateLt
            ((clusterEligible [cRow1, cRow2, cRow3]).filter
              (fun f => f.ticker == "X")))).head? with
         | none => []
         | some w => [{ ticker := "X", insider_name := clusterNames w.2,
                        accession_no := minAccession w.2,
                        flag_type := FlagType.CLUSTER_BUY, severity := "HIGH" }])) :=
  ⟨by simp, (cluster_buy_correct [cRow1, cRow2, cRow3] [] "X" (by simp)).1⟩

/-- A ticker refresh with a live connection never raises. -/
theorem refresh_ticker_ok {conn : String → Bool} {db : DB} {t : String}
    (h : conn t = true) :
    (refresh_analytics_for_ticker conn db t).2.2 = none := by
  simp only [refresh_analytics_for_ticker, h]
  rw [if_neg (by simp)]
  split <;> rfl

/-- Claim C5 (amended): on an exception inside `refresh_analytics_for_ticker`
the in-flight batch is rolled back — the store is returned exactly as it
was — and the exception is re-raised; but `refresh_all_analytics` has no
per-ticker try/except, so the first failing ticker ends the loop: the run
keeps the commits of the preceding tickers, propagates the exception, and
does not process the failing ticker or any later ticker. -/
theorem refresh_failure_semantics (conn : String → Bool) :
    (∀ (db : DB) (t : String), conn t = false →
      refresh_analytics_for_ticker conn db t = (db, 0, some ()))
    ∧ ∀ (pre : List String) (post : List String) (t : String) (db : DB),
        (∀ c ∈ pre, conn c = true) → conn t = false →
        refresh_all_analytics conn (pre ++ t :: post) db =
          ((refresh_all_analytics conn pre db).1,
            (refresh_all_analytics conn pre db).2.1, some ()) := by
  constructor
  · intro db t h
    simp [refresh_analytics_for_ticker, h]
  · intro pre
    induction pre with
    | nil =>
      intro post t db hpre hfail
      simp only [List.nil_append, refresh_all_analytics]
      rw [show refresh_analytics_for_ticker conn db t = (db, 0, some ()) from by
        simp [refresh_analytics_for_ticker, hfail]]
    | cons c cs ih =>
      intro post t db hpre hfail
      rcases hc : refresh_analytics_for_ticker conn db c with ⟨db1, n, e⟩
      have he : e = none := by
        have h2 := @refresh_ticker_ok conn db c (hpre c (List.mem_cons_self c cs))
        rw [hc] at h2
        exact h2
      subst he
      have hstep : ∀ l : List String,
          refresh_all_analytics conn (c :: l) db =
            ((refresh_all_analytics conn l db1).1,
              n + (refresh_all_analytics conn l db1).2.1,
              (refresh_all_analytics conn l db1).2.2) := by
        intro l
        simp only [refresh_all_analytics]
        rw [hc]
      rw [show (c :: cs) ++ t :: post = c :: (cs ++ t :: post) from rfl,
        hstep (cs ++ t :: post), hstep cs,
        ih post t db1 (fun c' hc' => hpre c' (List.mem_cons_of_mem c hc')) hfail]

/-- Connection oracle failing exactly on ticker A. -/
def connFailA : String → Bool := fun t => t != "A"

/-- A filing row of ticker A. -/
def tickARow : Section16Filing :=
  { blankRow with
    accession_no := "T1", ticker := "A", insider_name := "I1",
    filing_date := some 0 }

/-- A filing row of ticker B. -/
def tickBRow : Section16Filing :=
  { blankRow with
    accession_no := "T2", ticker := "B", insider_name := "I2",
    filing_date := some 0 }

/-- Store holding one filing for each of the tickers A and B. -/
def twoTickerDb : DB := ⟨[tickARow, tickBRow], [], [], []⟩

/-- Claim C5 counterexample: with ticker A failing and ticker B healthy,
the full-watchlist refresh raises and finishes with no analytics for
ticker B — although refreshing B alone would upsert one record — so the
loop does not continue to the next ticker after a failure. -/
theorem refresh_all_stops_counterexample :
    (refresh_all_analytics connFailA ["A", "B"] twoTickerDb).2.2 = some () ∧
      (refresh_all_analytics connFailA ["A", "B"] twoTickerDb).1.analytics = [] ∧
      (refresh_analytics_for_ticker connFailA twoTickerDb "B").2.1 = 1 := by
  decide

/-- Claim C5 witness: both parts of the amended theorem at the concrete
two-ticker store, failing on A placed first. -/
theorem refresh_failure_semantics_witness :
    connFailA "A" = false ∧
      refresh_analytics_for_ticker connFailA twoTickerDb "A" = (twoTickerDb, 0, some ()) ∧
      refresh_all_analytics connFailA ([] ++ "A" :: ["B"]) twoTickerDb =
        ((refresh_all_analytics connFailA [] twoTickerDb).1,
          (refresh_all_analytics connFailA [] twoTickerDb).2.1, some ()) :=
  ⟨by decide, (refresh_failure_semantics connFailA).1 twoTickerDb "A" (by decide),
    (refresh_failure_semantics connFailA).2 [] ["B"] "A" twoTickerDb
      (by simp) (by decide)⟩

/-- Claim C10: when the chronologically latest non-derivative row carrying
a remaining balance reports exactly 0 shares, the per-insider computer
sets last_reported_shares to 0 but current_position_value to no value —
not 0 — for every price table; and current_position_value is likewise no
value whenever the latest price is missing or exactly 0. -/
theorem zero_balance_position_value (prices : List PricePoint) (t n : String)
    (rows : List Section16Filing) :
    ((((sortBy txnDateLt ((sortBy txnDateLt (rows.filter
          (fun r => r.is_derivative == false))).filter
          (fun r => r.shares_remaining.isSome))).getLast?).bind
          (fun r => r.shares_remaining) = some 0 →
        (_compute_for_insider prices t n rows).last_reported_shares = some 0 ∧
          (_compute_for_insider prices t n rows).current_position_value = none))
    ∧ (get_latest_price prices t = none ∨ get_latest_price prices t = some 0 →
        (_compute_for_insider prices t n rows).current_position_value = none) := by
  constructor
  · intro hlast
    simp only [_compute_for_insider]
    rw [hlast]
    exact ⟨rfl, rfl⟩
  · intro hcur
    simp only [_compute_for_insider]
    rcases hcur with h | h
    · rw [h]
      simp [pyTruthy]
    · rw [h]
      simp [pyTruthy]

/-- Non-derivative row whose remaining balance is exactly zero. -/
def zeroBalRow : Section16Filing :=
  { blankRow with
    accession_no := "Z1", ticker := "T", insider_name := "I",
    filing_date := some 0, transaction_date := some 0,
    transaction_code := some "S", shares := some 10,
    shares_remaining := some 0 }

/-- Claim C10 witness: with a current price of 50 on record, the zero
balance yields last_reported_shares 0 and no position value. -/
theorem zero_balance_position_value_witness :
    (((sortBy txnDateLt ((sortBy txnDateLt ([zeroBalRow].filter
          (fun r => r.is_derivative == false))).filter
          (fun r => r.shares_remaining.isSome))).getLast?).bind
          (fun r => r.shares_remaining) = some 0) ∧
      (_compute_for_insider [⟨"T", 0, 50⟩] "T" "I" [zeroBalRow]).last_reported_shares =
        some 0 ∧
      (_compute_for_insider [⟨"T", 0, 50⟩] "T" "I" [zeroBalRow]).current_position_value =
        none :=
  ⟨by decide,
    (zero_balance_position_value [⟨"T", 0, 50⟩] "T" "I" [zeroBalRow]).1 (by decide)⟩

end FilingWatcher
